import Mathlib

/-!
Verification of the MCP GitHub App server (`src/mcp_github_app/server.py`)
against its natural-language specification.

The development shallowly embeds the decision logic of the server:

* the installation-token cache (`_get_installation_token`, lines 70-102),
* the lazily constructed GitHub client (`_get_github_client`, lines 104-109),
* the branch-name normalization of `create_branch` (lines 672-699),
* the pull-request resolution pipeline of `create_pull_request`
  (lines 911-1194), and
* the result-shape layer of `handle_tools_call` (lines 411-482) together
  with the return sites of every tool handler.

Remote GitHub calls are modelled by explicit oracle parameters describing
the observable outcome of each call; times are modelled as integers
(Unix seconds).
-/

namespace GithubApp

/-! ## Credential manager: `_get_installation_token` (server.py lines 70-102)

State fields mirror `self._installation_token` (a string or `None`) and
`self._token_expires_at` (a Unix timestamp or `None`).  Python truthiness
(`if self._installation_token and self._token_expires_at:`) treats the empty
string and the timestamp `0` as absent. -/

structure TokenState where
  installation_token : Option String
  token_expires_at : Option Int
  deriving DecidableEq, Repr

/-- Outcome of the POST to the token-issuance endpoint.  `expires_at = none`
models a response whose `expires_at` field is missing or empty
(`data.get('expires_at', '')` falsy at line 93). -/
structure MintResponse where
  token : String
  expires_at : Option Int
  deriving DecidableEq, Repr

/-- The network either yields a parsed response or the request/parse raises. -/
inductive MintOutcome where
  | ok (resp : MintResponse)
  | err (msg : String)
  deriving DecidableEq, Repr

/-- The freshness test at lines 73-75:
`if self._installation_token and self._token_expires_at:
   if time.time() < self._token_expires_at - 60: return ...`. -/
def tokenCacheFresh (st : TokenState) (now : Int) : Bool :=
  match st.installation_token, st.token_expires_at with
  | some t, some e => t ≠ "" && e ≠ 0 && now < e - 60
  | _, _ => false

/-- Expiry recorded after a successful mint (lines 93-98): the endpoint's
`expires_at` when present, otherwise `now + 55 * 60`. -/
def mintExpiry (now : Int) (resp : MintResponse) : Int :=
  match resp.expires_at with
  | some e => e
  | none => now + 55 * 60

/-- `_get_installation_token` (lines 70-102).  Returns the call's result
(`Except` models the `ValueError` raised at line 102), the new cache state,
and the number of network requests to the issuance endpoint performed
during the call. -/
def getInstallationToken (st : TokenState) (now : Int) (net : MintOutcome) :
    Except String String × TokenState × Nat :=
  if tokenCacheFresh st now then
    (.ok (st.installation_token.getD ""), st, 0)
  else
    match net with
    | .ok resp =>
        (.ok resp.token, ⟨some resp.token, some (mintExpiry now resp)⟩, 1)
    | .err m =>
        (.error ("无法获取installation token: " ++ m), st, 1)

/-! ## GitHub client construction: `_get_github_client` (lines 104-109)

`self.github` is created from the current installation token only when it is
still `None`; afterwards the stored client object is returned unchanged.  We
identify a client with the token string it was constructed with. -/

structure ServerState where
  github : Option String
  tok : TokenState
  deriving DecidableEq, Repr

/-- `_get_github_client` (lines 104-109): result is the client's token, the
new server state, and the number of token-endpoint requests performed. -/
def getGithubClient (st : ServerState) (now : Int) (net : MintOutcome) :
    Except String (String × ServerState × Nat) :=
  match st.github with
  | some c => .ok (c, st, 0)
  | none =>
      match getInstallationToken st.tok now net with
      | (.ok t, ts, n) => .ok (t, ⟨some t, ts⟩, n)
      | (.error m, _, _) => .error m

/-! ### Claim C2 -/

/-- **C2.** For every call to the installation-token getter: when a (truthy)
cached token exists and the current time is more than 60 seconds before its
recorded expiry, the cached token is returned unchanged with no network
request; otherwise a successful call performs exactly one network request,
records the expiry from the response (or `now + 55` minutes when the response
omits it) and caches and returns the new token; consequently a second call
within the freshness window returns the identical token string with no
second network request. -/
theorem installation_token_cache_behaviour :
    (∀ (st : TokenState) (now : Int) (net : MintOutcome) (t : String) (e : Int),
      st.installation_token = some t → t ≠ "" →
      st.token_expires_at = some e → e ≠ 0 → now < e - 60 →
      getInstallationToken st now net = (.ok t, st, 0)) ∧
    (∀ (st : TokenState) (now : Int) (resp : MintResponse),
      tokenCacheFresh st now = false →
      getInstallationToken st now (.ok resp) =
        (.ok resp.token, ⟨some resp.token, some (mintExpiry now resp)⟩, 1)) ∧
    (∀ (st : TokenState) (now₁ now₂ : Int) (resp : MintResponse)
        (net₂ : MintOutcome),
      tokenCacheFresh st now₁ = false →
      resp.token ≠ "" → mintExpiry now₁ resp ≠ 0 →
      now₂ < mintExpiry now₁ resp - 60 →
      getInstallationToken (getInstallationToken st now₁ (.ok resp)).2.1 now₂ net₂ =
        (.ok resp.token, (getInstallationToken st now₁ (.ok resp)).2.1, 0)) := by
  refine ⟨?_, ?_, ?_⟩
  · intro st now net t e ht htne he hene hlt
    have hfresh : tokenCacheFresh st now = true := by
      simp [tokenCacheFresh, ht, he, htne, hene, hlt]
    simp [getInstallationToken, hfresh, ht]
  · intro st now resp hstale
    simp [getInstallationToken, hstale]
  · intro st now₁ now₂ resp net₂ hstale htne hene hlt
    have hst' : (getInstallationToken st now₁ (.ok resp)).2.1 =
        ⟨some resp.token, some (mintExpiry now₁ resp)⟩ := by
      simp [getInstallationToken, hstale]
    rw [hst']
    have hfresh : tokenCacheFresh ⟨some resp.token, some (mintExpiry now₁ resp)⟩ now₂ = true := by
      simp [tokenCacheFresh, htne, hene, hlt]
    simp [getInstallationToken, hfresh]

/-- Witness for C2 at concrete inputs. -/
theorem installation_token_cache_behaviour_witness :
    getInstallationToken ⟨some "tokA", some 5000⟩ 1000 (.ok ⟨"tokB", none⟩) =
      (.ok "tokA", ⟨some "tokA", some 5000⟩, 0) ∧
    getInstallationToken ⟨none, none⟩ 1000 (.ok ⟨"tokB", none⟩) =
      (.ok "tokB", ⟨some "tokB", some 4300⟩, 1) := by
  constructor
  · exact installation_token_cache_behaviour.1 ⟨some "tokA", some 5000⟩ 1000
      (.ok ⟨"tokB", none⟩) "tokA" 5000 rfl (by decide) rfl (by decide) (by decide)
  · have h := installation_token_cache_behaviour.2.1 ⟨none, none⟩ 1000
      ⟨"tokB", none⟩ (by decide)
    simpa [mintExpiry] using h

/-! ### Claim C9 -/

/-- **C9.** The GitHub client is constructed at most once: once `self.github`
is set, every later call returns that same client with no token-endpoint
request — even when the cached installation token is stale — and the first
call from an unset client constructs it from the token minted at that
moment. -/
theorem github_client_constructed_once :
    (∀ (st : ServerState) (c : String) (now : Int) (net : MintOutcome),
      st.github = some c →
      getGithubClient st now net = .ok (c, st, 0)) ∧
    (∀ (st : ServerState) (now : Int) (resp : MintResponse),
      st.github = none →
      tokenCacheFresh st.tok now = false →
      getGithubClient st now (.ok resp) =
        .ok (resp.token,
          ⟨some resp.token, ⟨some resp.token, some (mintExpiry now resp)⟩⟩, 1)) := by
  constructor
  · intro st c now net hc
    simp [getGithubClient, hc]
  · intro st now resp hnone hstale
    simp only [getGithubClient, hnone]
    have hmint : getInstallationToken st.tok now (.ok resp) =
        (.ok resp.token, ⟨some resp.token, some (mintExpiry now resp)⟩, 1) := by
      simp [getInstallationToken, hstale]
    rw [hmint]

/-- Witness for C9: with a client already constructed from token `"first"`,
a later call in a state whose token cache is long expired still returns the
`"first"` client and performs no token request. -/
theorem github_client_constructed_once_witness :
    getGithubClient ⟨some "first", ⟨some "stale", some 10⟩⟩ 99999 (.ok ⟨"new", none⟩) =
      .ok ("first", ⟨some "first", ⟨some "stale", some 10⟩⟩, 0) :=
  github_client_constructed_once.1
    ⟨some "first", ⟨some "stale", some 10⟩⟩ "first" 99999 (.ok ⟨"new", none⟩) rfl

/-! ## Branch-name normalization: `create_branch` (server.py lines 672-699)

The Python pipeline on the caller-supplied name, in order:

1. `branch_name.strip()` — strip whitespace at both ends;
2. if the result does not start with `'c3/'`: keep only the last `'/'`
   segment when a `'/'` is present, then prepend `'c3/'`;
3. the first `re.sub` — replace every character that is not a
   word character, `'-'` or `'/'` by `'-'`;
4. `re.sub(r'[/]{2,}', '/', ...)` — collapse runs of two or more `'/'`;
5. `re.sub(r'\.{2,}', '.', ...)` — collapse runs of two or more `'.'`;
6. `.strip('/.-')` — strip `'/'`, `'.'`, `'-'` at both ends;
7. re-apply the `'c3/'` prefix if it was lost.

Strings are embedded as `List Char`.  Python's unicode `\w` class and
`str.strip()` whitespace class are parameters `isW` / `isSpace`; the facts
the proofs need about them are collected in `CharClassOK`, which the real
Python classes satisfy. -/

/-- The character class kept by the first `re.sub` (word characters, dash, slash). -/
def keepChar (isW : Char → Bool) (c : Char) : Bool :=
  isW c || c == '-' || c == '/'

/-- Drop the longest suffix of characters satisfying `p` (the trailing half
of Python's `strip`). -/
def dropTrailing (p : Char → Bool) (l : List Char) : List Char :=
  (l.reverse.dropWhile p).reverse

/-- Python's `str.strip(chars)`: drop matching characters at both ends. -/
def stripWhile (p : Char → Bool) (l : List Char) : List Char :=
  dropTrailing p (l.dropWhile p)

/-- `startswith('c3/')`. -/
def startsWithC3 : List Char → Bool
  | c :: d :: e :: _ => c == 'c' && d == '3' && e == '/'
  | _ => false

/-- `normalized.split('/')[-1]`: the suffix after the last `'/'`. -/
def lastSegment (l : List Char) : List Char :=
  (l.reverse.takeWhile (fun c => c ≠ '/')).reverse

/-- Lines 677-685: prepend `'c3/'` when missing, keeping only the last path
segment when the name already contains a `'/'`. -/
def applyC3 (l : List Char) : List Char :=
  if startsWithC3 l then l
  else if l.contains '/' then 'c' :: '3' :: '/' :: lastSegment l
  else 'c' :: '3' :: '/' :: l

/-- Line 690: replace every character outside word characters, dash, slash by a dash. -/
def sanitize (isW : Char → Bool) (l : List Char) : List Char :=
  l.map (fun c => if keepChar isW c then c else '-')

/-- Lines 692-693: collapse each run of two or more `a` into a single `a`
(`re.sub(r'[a]{2,}', 'a', ...)`). -/
def squeeze (a : Char) : List Char → List Char
  | [] => []
  | [c] => [c]
  | c :: d :: t =>
      if c == a && d == a then squeeze a (d :: t) else c :: squeeze a (d :: t)

/-- The class stripped by `.strip('/.-')` at line 695. -/
def stripDotSlashDash (c : Char) : Bool :=
  c == '/' || c == '.' || c == '-'

/-- Lines 697-699: re-apply the `'c3/'` prefix when missing. -/
def ensureC3 (l : List Char) : List Char :=
  if startsWithC3 l then l else 'c' :: '3' :: '/' :: l

/-- The full normalization performed by `create_branch` (lines 672-699). -/
def normalizeBranchName (isW isSpace : Char → Bool) (l : List Char) : List Char :=
  ensureC3 (stripWhile stripDotSlashDash
    (squeeze '.' (squeeze '/' (sanitize isW (applyC3 (stripWhile isSpace l))))))

/-- Facts about Python's `\w` and whitespace classes used by the proofs:
`'c'` and `'3'` are word characters, `'.'` is not, and no kept character
(word, `'-'`, `'/'`) is whitespace. -/
structure CharClassOK (isW isSpace : Char → Bool) : Prop where
  w_c : isW 'c' = true
  w_3 : isW '3' = true
  w_dot : isW '.' = false
  keep_not_space : ∀ c, keepChar isW c = true → isSpace c = false

/-- "No two adjacent occurrences of `a`": the condition under which a
`squeeze a` pass is the identity. -/
def NoAdj (a : Char) (l : List Char) : Prop :=
  l.Chain' (fun x y => ¬(x = a ∧ y = a))

section NormalizationLemmas

variable {a b : Char} {p : Char → Bool}

theorem squeeze_head? (a : Char) (l : List Char) : (squeeze a l).head? = l.head? := by
  induction l with
  | nil => rfl
  | cons c t ih =>
      cases t with
      | nil => rfl
      | cons d t' =>
          rw [squeeze]
          split
          · rename_i h
            simp only [Bool.and_eq_true, beq_iff_eq] at h
            rw [ih]
            simp [h.1, h.2]
          · rfl

theorem mem_squeeze {c : Char} {l : List Char} (h : c ∈ squeeze a l) : c ∈ l := by
  induction l with
  | nil => simp [squeeze] at h
  | cons x t ih =>
      cases t with
      | nil => simpa [squeeze] using h
      | cons d t' =>
          rw [squeeze] at h
          split at h
          · exact List.mem_cons_of_mem _ (ih h)
          · rcases List.mem_cons.mp h with h' | h'
            · exact h' ▸ List.mem_cons_self _ _
            · exact List.mem_cons_of_mem _ (ih h')

theorem squeeze_noAdj (a : Char) (l : List Char) : NoAdj a (squeeze a l) := by
  induction l with
  | nil => exact List.chain'_nil
  | cons c t ih =>
      cases t with
      | nil => exact List.chain'_singleton _
      | cons d t' =>
          rw [squeeze]
          split
          · exact ih
          · rename_i h
            simp only [Bool.and_eq_true, beq_iff_eq, not_and] at h
            refine List.chain'_cons'.mpr ⟨?_, ih⟩
            intro y hy
            rw [squeeze_head?] at hy
            simp only [List.head?_cons, Option.mem_def, Option.some.injEq] at hy
            subst hy
            exact fun hp => h hp.1 hp.2

theorem squeeze_preserves_noAdj {l : List Char}
    (h : NoAdj a l) : NoAdj a (squeeze b l) := by
  induction l with
  | nil => exact List.chain'_nil
  | cons c t ih =>
      cases t with
      | nil => exact List.chain'_singleton _
      | cons d t' =>
          rw [squeeze]
          have htail : NoAdj a (d :: t') := (List.chain'_cons.mp h).2
          split
          · exact ih htail
          · refine List.chain'_cons'.mpr ⟨?_, ih htail⟩
            intro y hy
            rw [squeeze_head?] at hy
            simp only [List.head?_cons, Option.mem_def, Option.some.injEq] at hy
            subst hy
            exact (List.chain'_cons.mp h).1

theorem squeeze_eq_self {l : List Char} (h : NoAdj a l) : squeeze a l = l := by
  induction l with
  | nil => rfl
  | cons c t ih =>
      cases t with
      | nil => rfl
      | cons d t' =>
          rw [squeeze]
          have hcd : ¬(c = a ∧ d = a) := (List.chain'_cons.mp h).1
          have hcond : (c == a && d == a) = false := by
            cases hb : (c == a && d == a) with
            | false => rfl
            | true =>
                simp only [Bool.and_eq_true, beq_iff_eq] at hb
                exact absurd hb hcd
          rw [hcond]
          simp only [Bool.false_eq_true, if_false]
          rw [ih (List.chain'_cons.mp h).2]

theorem noAdj_of_not_mem {l : List Char} (h : a ∉ l) : NoAdj a l := by
  induction l with
  | nil => exact List.chain'_nil
  | cons c t ih =>
      cases t with
      | nil => exact List.chain'_singleton _
      | cons d t' =>
          refine List.chain'_cons.mpr ⟨?_, ih (fun hm => h (List.mem_cons_of_mem _ hm))⟩
          intro hcd

          exact h (hcd.1 ▸ List.mem_cons_self _ _)

theorem head?_dropWhile_not (p : Char → Bool) (l : List Char) :
    ∀ x ∈ (l.dropWhile p).head?, p x = false := by
  induction l with
  | nil => intro x hx; simp at hx
  | cons c t ih =>
      intro x hx
      rw [List.dropWhile_cons] at hx
      split at hx
      · exact ih x hx
      · rename_i hc
        simp only [List.head?_cons, Option.mem_def, Option.some.injEq] at hx
        subst hx
        exact Bool.not_eq_true _ ▸ hc

theorem mem_dropTrailing {c : Char} {l : List Char} (h : c ∈ dropTrailing p l) : c ∈ l := by
  unfold dropTrailing at h
  rw [List.mem_reverse] at h
  have := (List.dropWhile_sublist (l := l.reverse) p).mem h
  rwa [List.mem_reverse] at this

theorem mem_stripWhile {c : Char} {l : List Char} (h : c ∈ stripWhile p l) : c ∈ l :=
  (List.dropWhile_sublist p).mem (mem_dropTrailing h)

theorem dropWhile_eq_self_of_head? {l : List Char}
    (h : ∀ x ∈ l.head?, p x = false) : l.dropWhile p = l := by
  cases l with
  | nil => rfl
  | cons c t =>
      rw [List.dropWhile_cons, h c rfl]
      simp

theorem dropTrailing_eq_self_of_getLast? {l : List Char}
    (h : ∀ x ∈ l.getLast?, p x = false) : dropTrailing p l = l := by
  unfold dropTrailing
  rw [dropWhile_eq_self_of_head? (by rw [List.head?_reverse]; exact h), List.reverse_reverse]

theorem stripWhile_eq_self_of_ends {l : List Char}
    (h₁ : ∀ x ∈ l.head?, p x = false) (h₂ : ∀ x ∈ l.getLast?, p x = false) :
    stripWhile p l = l := by
  unfold stripWhile
  rw [dropWhile_eq_self_of_head? h₁, dropTrailing_eq_self_of_getLast? h₂]

theorem stripWhile_eq_self_of_all {l : List Char}
    (h : ∀ x ∈ l, p x = false) : stripWhile p l = l :=
  stripWhile_eq_self_of_ends
    (fun x hx => h x (by cases l with
      | nil => simp at hx
      | cons c t => simp only [List.head?_cons, Option.mem_def, Option.some.injEq] at hx
                    exact hx ▸ List.mem_cons_self _ _))
    (fun x hx => h x (List.mem_of_mem_getLast? hx))

theorem dropTrailing_cons {c : Char} {r : List Char} (h : p c = false) :
    dropTrailing p (c :: r) = c :: dropTrailing p r := by
  unfold dropTrailing
  rw [List.reverse_cons, List.dropWhile_append]
  split
  · rename_i he
    rw [List.isEmpty_iff] at he
    have : r.reverse.dropWhile p = [] := he
    rw [this]
    simp [List.dropWhile_cons, h]
  · simp

theorem getLast?_dropTrailing (p : Char → Bool) (l : List Char) :
    ∀ x ∈ (dropTrailing p l).getLast?, p x = false := by
  intro x hx
  unfold dropTrailing at hx
  rw [List.getLast?_reverse] at hx
  exact head?_dropWhile_not p l.reverse x hx

theorem getLast?_stripWhile (p : Char → Bool) (l : List Char) :
    ∀ x ∈ (stripWhile p l).getLast?, p x = false :=
  getLast?_dropTrailing p _

theorem noAdj_dropWhile {l : List Char} (h : NoAdj a l) : NoAdj a (l.dropWhile p) := by
  induction l with
  | nil => exact List.chain'_nil
  | cons c t ih =>
      rw [List.dropWhile_cons]
      split
      · exact ih (List.Chain'.tail h)
      · exact h

theorem noAdj_reverse {l : List Char} (h : NoAdj a l) : NoAdj a l.reverse := by
  rw [NoAdj, List.chain'_reverse]
  exact h.imp (fun x y hxy => fun hc => hxy ⟨hc.2, hc.1⟩)

theorem noAdj_dropTrailing {l : List Char} (h : NoAdj a l) : NoAdj a (dropTrailing p l) :=
  noAdj_reverse (noAdj_dropWhile (noAdj_reverse h))

theorem noAdj_stripWhile {l : List Char} (h : NoAdj a l) : NoAdj a (stripWhile p l) :=
  noAdj_dropTrailing (noAdj_dropWhile h)

theorem map_eq_self_of {l : List Char} {f : Char → Char}
    (h : ∀ c ∈ l, f c = c) : l.map f = l := by
  induction l with
  | nil => rfl
  | cons c t ih =>
      rw [List.map_cons, h c (List.mem_cons_self _ _),
        ih (fun x hx => h x (List.mem_cons_of_mem _ hx))]

theorem squeeze_cons_ne {c d : Char} {t : List Char} (h : ¬(c = a ∧ d = a)) :
    squeeze a (c :: d :: t) = c :: squeeze a (d :: t) := by
  rw [squeeze]
  have hcond : (c == a && d == a) = false := by
    cases hb : (c == a && d == a) with
    | false => rfl
    | true =>
        simp only [Bool.and_eq_true, beq_iff_eq] at hb
        exact absurd hb h
  rw [hcond]
  simp

theorem squeeze_cons_shape (a c : Char) (t : List Char) :
    ∃ t', squeeze a (c :: t) = c :: t' := by
  have h := squeeze_head? a (c :: t)
  cases hs : squeeze a (c :: t) with
  | nil => rw [hs] at h; simp at h
  | cons x xs =>
      rw [hs] at h
      simp only [List.head?_cons, Option.some.injEq] at h
      exact ⟨xs, by rw [h]⟩

end NormalizationLemmas

section NormalizationInvariants

variable {isW isSpace : Char → Bool}

theorem startsWithC3_iff {l : List Char} :
    startsWithC3 l = true ↔ ∃ t, l = 'c' :: '3' :: '/' :: t := by
  cases l with
  | nil => simp [startsWithC3]
  | cons c t =>
      cases t with
      | nil => simp [startsWithC3]
      | cons d t' =>
          cases t' with
          | nil => simp [startsWithC3]
          | cons e t'' =>
              simp only [startsWithC3, Bool.and_eq_true, beq_iff_eq]
              constructor
              · rintro ⟨⟨h1, h2⟩, h3⟩
                exact ⟨t'', by rw [h1, h2, h3]⟩
              · rintro ⟨t, ht⟩
                injection ht with h1 ht
                injection ht with h2 ht
                injection ht with h3 _
                exact ⟨⟨h1, h2⟩, h3⟩

theorem applyC3_startsWithC3 (l : List Char) : startsWithC3 (applyC3 l) = true := by
  unfold applyC3
  split
  · assumption
  · split <;> rfl

theorem sanitize_c3 (hok : CharClassOK isW isSpace) (t : List Char) :
    sanitize isW ('c' :: '3' :: '/' :: t) = 'c' :: '3' :: '/' :: sanitize isW t := by
  simp [sanitize, keepChar, hok.w_c, hok.w_3]

theorem squeeze_startsWithC3 {a : Char} {l : List Char} (h : startsWithC3 l = true) :
    startsWithC3 (squeeze a l) = true := by
  obtain ⟨t, rfl⟩ := startsWithC3_iff.mp h
  rw [squeeze_cons_ne (by rintro ⟨h1, h2⟩; exact absurd (h1 ▸ h2.symm) (by decide)),
    squeeze_cons_ne (by rintro ⟨h1, h2⟩; exact absurd (h1 ▸ h2.symm) (by decide))]
  obtain ⟨t', ht'⟩ := squeeze_cons_shape a '/' t
  rw [ht']
  rfl

theorem stripDSD_c3_shape {l : List Char} (h : startsWithC3 l = true) :
    ∃ r, stripWhile stripDotSlashDash l = 'c' :: r := by
  obtain ⟨t, rfl⟩ := startsWithC3_iff.mp h
  unfold stripWhile
  rw [dropWhile_eq_self_of_head? (by intro x hx; simp at hx; subst hx; rfl)]
  exact ⟨_, dropTrailing_cons rfl⟩

theorem mem_sanitize {c : Char} {l : List Char} (h : c ∈ sanitize isW l) :
    keepChar isW c = true := by
  unfold sanitize at h
  rw [List.mem_map] at h
  obtain ⟨x, _, hx⟩ := h
  by_cases hk : keepChar isW x = true
  · rw [if_pos hk] at hx; exact hx ▸ hk
  · rw [if_neg hk] at hx; subst hx; simp [keepChar]

/-- The invariant characterizing outputs of the normalization, on which a
second normalization pass is the identity. -/
structure GoodName (isW : Char → Bool) (l : List Char) : Prop where
  pre : startsWithC3 l = true
  keep : ∀ c ∈ l, keepChar isW c = true
  noslash : NoAdj '/' l
  last : ∀ x ∈ l.getLast?, stripDotSlashDash x = false

theorem normalize_good (hok : CharClassOK isW isSpace) (l : List Char) :
    GoodName isW (normalizeBranchName isW isSpace l) := by
  set w := applyC3 (stripWhile isSpace l) with hw
  have hwc3 : startsWithC3 w = true := applyC3_startsWithC3 _
  set v1 := sanitize isW w with hv1
  have hv1c3 : startsWithC3 v1 = true := by
    obtain ⟨t, ht⟩ := startsWithC3_iff.mp hwc3
    rw [hv1, ht, sanitize_c3 hok]
    rfl
  set v2 := squeeze '/' v1 with hv2
  set v3 := squeeze '.' v2 with hv3
  have hv3c3 : startsWithC3 v3 = true :=
    squeeze_startsWithC3 (squeeze_startsWithC3 hv1c3)
  set v4 := stripWhile stripDotSlashDash v3 with hv4
  obtain ⟨r4, hr4⟩ := stripDSD_c3_shape hv3c3
  rw [← hv4] at hr4
  -- membership invariant for v4
  have hkeep4 : ∀ c ∈ v4, keepChar isW c = true := fun c hc =>
    mem_sanitize (mem_squeeze (mem_squeeze (mem_stripWhile hc)))
  -- no adjacent slashes in v4
  have hnos4 : NoAdj '/' v4 :=
    noAdj_stripWhile (squeeze_preserves_noAdj (squeeze_noAdj '/' v1))
  -- trailing character of v4 survives the '/.-' strip
  have hlast4 : ∀ x ∈ v4.getLast?, stripDotSlashDash x = false :=
    getLast?_stripWhile _ _
  show GoodName isW (ensureC3 v4)
  unfold ensureC3
  split
  · rename_i hc3
    exact ⟨hc3, hkeep4, hnos4, hlast4⟩
  · refine ⟨rfl, ?_, ?_, ?_⟩
    · intro c hc
      simp only [List.mem_cons] at hc
      rcases hc with rfl | rfl | rfl | hc
      · simp [keepChar, hok.w_c]
      · simp [keepChar, hok.w_3]
      · simp [keepChar]
      · exact hkeep4 c hc
    · rw [hr4]
      refine List.chain'_cons.mpr ⟨by decide, ?_⟩
      refine List.chain'_cons.mpr ⟨by decide, ?_⟩
      refine List.chain'_cons.mpr ⟨by decide, ?_⟩
      rw [← hr4]
      exact hnos4
    · intro x hx
      have hne : v4 ≠ [] := by rw [hr4]; exact List.cons_ne_nil _ _
      have : ('c' :: '3' :: '/' :: v4).getLast? = v4.getLast? := by
        show (['c', '3', '/'] ++ v4).getLast? = v4.getLast?
        rw [List.getLast?_append]
        cases hg : v4.getLast? with
        | none => exact absurd (List.getLast?_eq_none_iff.mp hg) hne
        | some y => rfl
      rw [this] at hx
      exact hlast4 x hx

theorem normalize_fixpoint (hok : CharClassOK isW isSpace) {l : List Char}
    (h : GoodName isW l) : normalizeBranchName isW isSpace l = l := by
  have s1 : stripWhile isSpace l = l :=
    stripWhile_eq_self_of_all (fun c hc => hok.keep_not_space c (h.keep c hc))
  have s2 : applyC3 l = l := by unfold applyC3; rw [h.pre]; simp
  have s3 : sanitize isW l = l :=
    map_eq_self_of (fun c hc => by rw [h.keep c hc]; simp)
  have s4 : squeeze '/' l = l := squeeze_eq_self h.noslash
  have hnodot : '.' ∉ l := fun hd => by
    have := h.keep '.' hd
    simp [keepChar, hok.w_dot] at this
  have s5 : squeeze '.' l = l := squeeze_eq_self (noAdj_of_not_mem hnodot)
  have hhead : ∀ x ∈ l.head?, stripDotSlashDash x = false := by
    obtain ⟨t, rfl⟩ := startsWithC3_iff.mp h.pre
    intro x hx
    simp only [List.head?_cons, Option.mem_def, Option.some.injEq] at hx
    subst hx
    rfl
  have s6 : stripWhile stripDotSlashDash l = l :=
    stripWhile_eq_self_of_ends hhead h.last
  have s7 : ensureC3 l = l := by unfold ensureC3; rw [h.pre]; simp
  unfold normalizeBranchName
  rw [s1, s2, s3, s4, s5, s6, s7]

end NormalizationInvariants

/-! ### Claim C3 -/

/-- **C3.** For any word-character and whitespace classes satisfying the
facts `CharClassOK` (which Python's `\w` and `str.strip` classes do), the
branch-name normalization used by `create_branch` is idempotent on every
input string, and its output starts with the fixed prefix `'c3/'` for every
input string (in particular every non-empty one). -/
theorem branch_normalization_idempotent_and_prefixed :
    ∀ (isW isSpace : Char → Bool), CharClassOK isW isSpace →
      (∀ l : List Char,
        normalizeBranchName isW isSpace (normalizeBranchName isW isSpace l) =
          normalizeBranchName isW isSpace l) ∧
      (∀ l : List Char, startsWithC3 (normalizeBranchName isW isSpace l) = true) :=
  fun _ _ hok =>
    ⟨fun l => normalize_fixpoint hok (normalize_good hok l),
     fun l => (normalize_good hok l).pre⟩

/-- ASCII instances of the character classes (Python's classes restricted to
ASCII); they satisfy `CharClassOK`. -/
def asciiWordChar (c : Char) : Bool := c.isAlphanum || c == '_'

def asciiSpaceChar (c : Char) : Bool := c.isWhitespace

theorem asciiClasses_ok : CharClassOK asciiWordChar asciiSpaceChar := by
  refine ⟨rfl, rfl, rfl, ?_⟩
  intro c hk
  cases hw : asciiSpaceChar c with
  | false => rfl
  | true =>
      exfalso
      have hws := hw
      simp only [asciiSpaceChar, Char.isWhitespace, Bool.or_eq_true,
        decide_eq_true_eq] at hws
      rcases hws with ((h | h) | h) | h <;> subst h <;> exact absurd hk (by decide)

/-- Witness for C3: idempotence and the prefix invariant evaluated on
concrete inputs (a name with an embedded slash and space, and a plain
name). -/
theorem branch_normalization_witness :
    normalizeBranchName asciiWordChar asciiSpaceChar
        (normalizeBranchName asciiWordChar asciiSpaceChar
          ("feature/my branch!".toList)) =
      normalizeBranchName asciiWordChar asciiSpaceChar ("feature/my branch!".toList) ∧
    startsWithC3 (normalizeBranchName asciiWordChar asciiSpaceChar ("hello".toList)) = true :=
  ⟨(branch_normalization_idempotent_and_prefixed asciiWordChar asciiSpaceChar
      asciiClasses_ok).1 _,
   (branch_normalization_idempotent_and_prefixed asciiWordChar asciiSpaceChar
      asciiClasses_ok).2 _⟩

/-! ## Pull-request creation: `create_pull_request` (server.py lines 911-1227)

The function is embedded as three sequential phases mirroring contiguous
line ranges of the source:

* `resolvePhase` — base defaulting (919-920), head defaulting (922-988),
  the head==base fix (990-1040) and the base-branch fetch (1042-1057);
* `collisionPhase` — the duplicate-PR check and timestamped-branch
  synthesis, lines 1059-1111 (the whole block sits in
  `try: ... except Exception: pass`);
* `guardPhase` — the head-branch refetch (1113-1129), the no-differences
  guard (1131-1146), the bounded history guard (1148-1186) and the final
  `repository.create_pull` call (1188-1194).

The repository as seen through the GitHub API is a `RepoState`; transient
failures of individual remote calls are oracle flags in `PREnv`.  Every
remote side effect is recorded, in program order, as an event. -/

structure Branch where
  name : String
  sha : String
  pushed_at : Int
  deriving DecidableEq, Repr

structure PullReq where
  head : String
  base : String
  deriving DecidableEq, Repr

structure RepoState where
  default_branch : String
  branches : List Branch
  open_pulls : List PullReq
  /-- `repository.get_commits(sha=s)`: the commit shas reachable from `s`,
  most recent first. -/
  commit_history : String → List String

/-- Call-level oracle for one `create_pull_request` invocation:
`datetime.now().strftime` outputs, `random.randint(10, 99)`, and transient
failures of the remote calls inside the collision block. -/
structure PREnv where
  dateStr : String
  timeStr : String
  rand : Nat
  /-- `repository.get_pulls(state='open')` at line 1068 raises. -/
  listPullsRaises : Bool
  /-- `repository.get_branch(head)` at line 1065 raises even though the
  branch exists (transient failure). -/
  headFetchRaises : Bool
  /-- `repository.create_git_ref` raises an error other than 422. -/
  createRefRaises : Bool
  deriving DecidableEq, Repr

/-- `repository.get_branch(name)`: the branch when it exists. -/
def findBranch (S : RepoState) (name : String) : Option Branch :=
  S.branches.find? (fun b => b.name == name)

def branchExists (S : RepoState) (name : String) : Bool :=
  (findBranch S name).isSome

/-- `repository.create_git_ref(...)` success: the repository gains a branch
of the given name at the given sha (its push timestamp plays no further
role in the call and is set to 0). -/
def addBranch (S : RepoState) (name sha : String) : RepoState :=
  { S with branches := S.branches ++ [⟨name, sha, 0⟩] }

/-- Results of `create_pull_request`, one constructor per `return` site of
the source (the JSON formatting is verified separately in the result-shape
layer). -/
inductive PRResult where
  /-- Line 928: the repository has no branches at all. -/
  | errorNoBranches
  /-- Line 970: no branch other than `base` to default `head` to. -/
  | errorNoCandidate (base : String)
  /-- Line 1025: head equals base and no other branch exists. -/
  | errorSameNoOther (head base : String)
  /-- Line 1045: the base branch does not exist. -/
  | errorBaseMissing (base : String)
  /-- Line 1117: the (possibly substituted) head branch does not exist. -/
  | errorHeadMissing (head : String)
  /-- Line 1133: head and base point at the identical commit. -/
  | errorNoDiff (head base sha : String)
  /-- Line 1170: head has no commits that base lacks. -/
  | errorNoNewCommits (head base : String)
  /-- Line 1220: the PR was submitted; carries the submitted head and base,
  the originally requested head, and whether a branch was synthesized. -/
  | success (head base origHead : String) (newBranchCreated : Bool)
  deriving DecidableEq, Repr

/-- Remote side effects of one `create_pull_request` invocation, in program
order.  `createRef` records one `create_git_ref` attempt and whether it
succeeded; `submitPull` is the final `repository.create_pull` call. -/
inductive Ev where
  | listPulls
  | createRef (name sha : String) (ok : Bool)
  | guardNoDiff (passed : Bool)
  | guardHistory (passed : Bool)
  | submitPull (head base : String)
  deriving DecidableEq, Repr

/-- Events emitted by the collision block (before either guard runs). -/
def isCollisionEv : Ev → Bool
  | .listPulls => true
  | .createRef _ _ _ => true
  | _ => false

/-- Python truthiness of an optional string argument (`if not base:`). -/
def truthy : Option String → Bool
  | none => false
  | some s => s ≠ ""

/-- Stable-sort-then-take-first of lines 984-988: the branch with the
latest `pushed_at`, earliest listed on ties (Python's `sort` is stable and
`reverse=True` keeps the original order of equal keys). -/
def foldNewest (b : Branch) (t : List Branch) : Branch :=
  t.foldl (fun acc x => if acc.pushed_at < x.pushed_at then x else acc) b

/-- The strict order of the sort key `(is_default, -timestamp)` at
line 1039: prefer non-default branches, then the most recently pushed. -/
def baseKeyLt (defb : String) (x acc : Branch) : Bool :=
  (!(x.name == defb) && (acc.name == defb)) ||
    ((x.name == defb) == (acc.name == defb) && acc.pushed_at < x.pushed_at)

/-- Stable-sort-then-take-first of lines 1038-1040. -/
def foldBase (defb : String) (b : Branch) (t : List Branch) : Branch :=
  t.foldl (fun acc x => if baseKeyLt defb x acc then x else acc) b

/-- Lines 922-988: head defaulting.  When `head` is falsy, fail on an empty
repository, then pick among the branches other than `base₀` the one with
the latest push (line 988 takes element 0 of the stable descending sort).
The model takes every branch's commit information to be available: the
source skips a branch whose info fetch raises (lines 965-967) and falls
back to `datetime.now()` when no commit date is present (lines 956-958). -/
def resolveHead (S : RepoState) (head? : Option String) (base₀ : String) :
    Except PRResult String :=
  if truthy head? then .ok (head?.getD "")
  else
    match S.branches with
    | [] => .error .errorNoBranches
    | _ :: _ =>
        match S.branches.filter (fun b => b.name ≠ base₀) with
        | [] => .error (.errorNoCandidate base₀)
        | c :: t => .ok (foldNewest c t).name

/-- Lines 990-1040: the head==base fix.  When the resolved head equals the
base, re-select the base among the branches other than head, preferring a
non-default branch and then the most recently pushed one. -/
def resolveBase (S : RepoState) (head base₀ : String) : Except PRResult String :=
  if head = base₀ then
    match S.branches.filter (fun b => b.name ≠ head) with
    | [] => .error (.errorSameNoOther head base₀)
    | c :: t => .ok (foldBase S.default_branch c t).name
  else .ok base₀

/-- Lines 919-920: `if not base: base = repository.default_branch`. -/
def baseDefault (S : RepoState) (base? : Option String) : String :=
  if truthy base? then base?.getD "" else S.default_branch

/-- Lines 919-1057: base defaulting, head defaulting, the head==base fix
and the base-branch fetch.  Returns the resolved `(head, base)` pair and
the fetched base branch, or the error result returned early. -/
def resolvePhase (S : RepoState) (head? base? : Option String) :
    Except PRResult (String × String × Branch) :=
  match resolveHead S head? (baseDefault S base?) with
  | .error e => .error e
  | .ok head =>
      match resolveBase S head (baseDefault S base?) with
      | .error e => .error e
      | .ok base =>
          match findBranch S base with
          | none => .error (.errorBaseMissing base)
          | some bb => .ok (head, base, bb)

/-- The duplicate-PR check and branch synthesis, lines 1059-1111.  Returns
the (possibly extended) repository, the (possibly substituted) head, the
`new_branch_created` flag, and the events.  Any exception inside the block
is swallowed (`except Exception: pass`, lines 1109-1111). -/
def collisionPhase (S : RepoState) (env : PREnv) (head base : String) :
    (RepoState × String × Bool) × List Ev :=
  match findBranch S head with
  | none => ((S, head, false), [])
  | some hb =>
      if env.headFetchRaises then ((S, head, false), [])
      else if env.listPullsRaises then ((S, head, false), [.listPulls])
      else if S.open_pulls.any (fun p => p.head == head && p.base == base) then
        let newName := "c3/" ++ env.dateStr ++ "/" ++ env.timeStr
        if env.createRefRaises then
          ((S, head, false), [.listPulls, .createRef newName hb.sha false])
        else if branchExists S newName then
          let retryName := newName ++ toString env.rand
          if branchExists S retryName then
            ((S, head, false),
              [.listPulls, .createRef newName hb.sha false,
                .createRef retryName hb.sha false])
          else
            ((addBranch S retryName hb.sha, retryName, true),
              [.listPulls, .createRef newName hb.sha false,
                .createRef retryName hb.sha true])
        else
          ((addBranch S newName hb.sha, newName, true),
            [.listPulls, .createRef newName hb.sha true])
      else ((S, head, false), [.listPulls])

/-- The trigger condition of the subset-of-history guard (lines 1148-1183):
the 10 most recent commits of head are all among the 10 most recent commits
of base, and no commit reachable from head is missing from those 10.  The
model takes the two `get_commits` calls to succeed; the source skips the
guard when they raise (lines 1184-1186). -/
def historyNoNew (S : RepoState) (hsha bsha : String) : Bool :=
  ((S.commit_history hsha).take 10).all
      (fun c => ((S.commit_history bsha).take 10).contains c) &&
    (S.commit_history hsha).all
      (fun c => ((S.commit_history bsha).take 10).contains c)

/-- Lines 1113-1194: head refetch, the no-differences guard, the bounded
history guard, and the final submission. -/
def guardPhase (S' : RepoState) (head base origHead : String) (bb : Branch)
    (created : Bool) : PRResult × List Ev :=
  match findBranch S' head with
  | none => (.errorHeadMissing head, [])
  | some hb =>
      if hb.sha = bb.sha then
        (.errorNoDiff head base hb.sha, [.guardNoDiff false])
      else if historyNoNew S' hb.sha bb.sha then
        (.errorNoNewCommits head base, [.guardNoDiff true, .guardHistory false])
      else
        (.success head base origHead created,
          [.guardNoDiff true, .guardHistory true, .submitPull head base])

/-- `create_pull_request` (lines 911-1227): the three phases in source
order.  Returns the result, the repository state after the call (it can
gain a synthesized branch), and the remote events in program order. -/
def createPullRequest (S : RepoState) (env : PREnv) (head? base? : Option String) :
    PRResult × RepoState × List Ev :=
  match resolvePhase S head? base? with
  | .error r => (r, S, [])
  | .ok (head, base, bb) =>
      let ((S', head', created), ev₁) := collisionPhase S env head base
      let (r, ev₂) := guardPhase S' head' base head bb created
      (r, S', ev₁ ++ ev₂)

section PRPipelineLemmas

/-- The fold implementing "stable sort, take element 0" always picks an
element of the candidate list. -/
theorem foldSelect_mem (P : Branch → Branch → Prop) [DecidableRel P]
    (b : Branch) (t : List Branch) :
    t.foldl (fun acc x => if P acc x then x else acc) b ∈ b :: t := by
  induction t generalizing b with
  | nil => simp
  | cons x xs ih =>
      rw [List.foldl_cons]
      by_cases h : P b x
      · rw [if_pos h]
        rcases List.mem_cons.mp (ih x) with h' | h'
        · rw [h']; exact List.mem_cons_of_mem _ (List.mem_cons_self _ _)
        · exact List.mem_cons_of_mem _ (List.mem_cons_of_mem _ h')
      · rw [if_neg h]
        rcases List.mem_cons.mp (ih b) with h' | h'
        · rw [h']; exact List.mem_cons_self _ _
        · exact List.mem_cons_of_mem _ (List.mem_cons_of_mem _ h')

theorem foldNewest_mem (b : Branch) (t : List Branch) : foldNewest b t ∈ b :: t :=
  foldSelect_mem (fun acc x => acc.pushed_at < x.pushed_at) b t

theorem foldBase_mem (d : String) (b : Branch) (t : List Branch) :
    foldBase d b t ∈ b :: t :=
  foldSelect_mem (fun acc x => baseKeyLt d x acc = true) b t

theorem baseKeyLt_irrefl (d : String) (x : Branch) : baseKeyLt d x x = false := by
  simp [baseKeyLt]

theorem baseKeyLt_trans {d : String} {x y z : Branch}
    (h1 : baseKeyLt d x y = true) (h2 : baseKeyLt d y z = true) :
    baseKeyLt d x z = true := by
  simp only [baseKeyLt, Bool.or_eq_true, Bool.and_eq_true, Bool.not_eq_true',
    beq_iff_eq, decide_eq_true_eq] at *
  cases hx : x.name == d <;> cases hy : y.name == d <;> cases hz : z.name == d <;>
    simp_all <;> omega

theorem baseKeyLt_le_lt {d : String} {x b f : Branch}
    (h1 : baseKeyLt d x b = false) (h2 : baseKeyLt d x f = true) :
    baseKeyLt d b f = true := by
  simp only [baseKeyLt, Bool.or_eq_true, Bool.and_eq_true, Bool.not_eq_true',
    beq_iff_eq, decide_eq_true_eq, Bool.or_eq_false_iff, Bool.and_eq_false_iff] at *
  cases hx : x.name == d <;> cases hb : b.name == d <;> cases hf : f.name == d <;>
    simp_all <;> omega

/-- The fold implementing the base re-selection picks a key-minimal
candidate: no candidate is strictly preferred (by the non-default-first,
then most-recently-pushed order) over the selected one. -/
theorem foldBase_min (d : String) (b : Branch) (t : List Branch) :
    ∀ x ∈ b :: t, baseKeyLt d x (foldBase d b t) = false := by
  induction t generalizing b with
  | nil =>
      intro x hx
      rw [List.mem_singleton.mp hx]
      exact baseKeyLt_irrefl d (foldBase d b [])
  | cons y ys ih =>
      intro x hx
      rw [foldBase, List.foldl_cons]
      by_cases h : baseKeyLt d y b = true
      · rw [if_pos h]
        have ihy := ih y
        simp only [foldBase] at ihy
        rcases List.mem_cons.mp hx with rfl | hx'
        · -- x = b: if b were preferred over the final pick, so would y be
          cases hres : baseKeyLt d x (List.foldl _ y ys) with
          | false => rfl
          | true =>
              have : baseKeyLt d y (List.foldl
                  (fun acc x => if baseKeyLt d x acc then x else acc) y ys) = true :=
                baseKeyLt_trans h hres
              rw [ihy y (List.mem_cons_self _ _)] at this
              exact this.symm
        · exact ihy x hx'
      · rw [if_neg h]
        have ihb := ih b
        simp only [foldBase] at ihb
        rcases List.mem_cons.mp hx with rfl | hx'
        · exact ihb x (List.mem_cons_self _ _)
        · rcases List.mem_cons.mp hx' with rfl | hx''
          · -- x = y: y was not preferred over b, so not over the final pick
            cases hres : baseKeyLt d x (List.foldl _ b ys) with
            | false => rfl
            | true =>
                have hfb : baseKeyLt d x b = false := Bool.not_eq_true _ ▸ h
                have : baseKeyLt d b (List.foldl
                    (fun acc x => if baseKeyLt d x acc then x else acc) b ys) = true :=
                  baseKeyLt_le_lt hfb hres
                rw [ihb b (List.mem_cons_self _ _)] at this
                exact this.symm
          · exact ihb x (List.mem_cons_of_mem _ hx'')

/-- A successful resolution yields a head distinct from the base, and a base
branch that exists in the repository. -/
theorem resolvePhase_ok {S : RepoState} {head? base? : Option String}
    {h b : String} {bb : Branch}
    (hr : resolvePhase S head? base? = .ok (h, b, bb)) :
    h ≠ b ∧ findBranch S b = some bb := by
  unfold resolvePhase at hr
  set base₀ := baseDefault S base? with hb₀
  cases hh : resolveHead S head? base₀ with
  | error e => rw [hh] at hr; exact absurd hr (by simp)
  | ok head =>
      simp only [hh] at hr
      cases hbase : resolveBase S head base₀ with
      | error e => simp only [hbase] at hr; exact absurd hr (by simp)
      | ok base =>
          simp only [hbase] at hr
          cases hfb : findBranch S base with
          | none => simp only [hfb] at hr; exact absurd hr (by simp)
          | some bb' =>
              simp only [hfb] at hr
              simp only [Except.ok.injEq, Prod.mk.injEq] at hr
              obtain ⟨rfl, rfl, rfl⟩ := hr
              refine ⟨?_, hfb⟩
              unfold resolveBase at hbase
              split at hbase
              · rename_i heq
                cases hfil : S.branches.filter (fun x => x.name ≠ head) with
                | nil => rw [hfil] at hbase; exact absurd hbase (by simp)
                | cons c t =>
                    rw [hfil] at hbase
                    simp only [Except.ok.injEq] at hbase
                    have hmem : foldBase S.default_branch c t ∈ c :: t :=
                      foldBase_mem _ c t
                    rw [← hfil] at hmem
                    have := (List.mem_filter.mp hmem).2
                    simp only [ne_eq, decide_eq_true_eq] at this
                    rw [← hbase]
                    exact fun hcontra => this hcontra.symm
              · rename_i hne
                simp only [Except.ok.injEq] at hbase
                rw [← hbase]
                exact hne

/-- Every execution path of the collision block: either nothing changed, or
a branch whose name was previously absent was created and substituted as
the head; all events emitted are collision events. -/
theorem collisionPhase_cases (S : RepoState) (env : PREnv) (h b : String) :
    ∃ S' h' c evs, collisionPhase S env h b = ((S', h', c), evs) ∧
      ((S' = S ∧ h' = h ∧ c = false) ∨
        (branchExists S h' = false ∧ c = true ∧ ∃ sha, S' = addBranch S h' sha)) ∧
      (∀ e ∈ evs, isCollisionEv e = true) := by
  unfold collisionPhase
  cases hfb : findBranch S h with
  | none => exact ⟨S, h, false, [], rfl, .inl ⟨rfl, rfl, rfl⟩, by simp⟩
  | some hb =>
      by_cases h1 : env.headFetchRaises
      · refine ⟨S, h, false, [], ?_, .inl ⟨rfl, rfl, rfl⟩, by simp⟩
        simp [h1]
      · by_cases h2 : env.listPullsRaises
        · refine ⟨S, h, false, [.listPulls], ?_, .inl ⟨rfl, rfl, rfl⟩,
            by simp [isCollisionEv]⟩
          simp [h1, h2]
        · by_cases h3 : S.open_pulls.any (fun p => p.head == h && p.base == b)
          · by_cases h4 : env.createRefRaises
            · refine ⟨S, h, false,
                [.listPulls, .createRef ("c3/" ++ env.dateStr ++ "/" ++ env.timeStr)
                  hb.sha false], ?_, .inl ⟨rfl, rfl, rfl⟩, by simp [isCollisionEv]⟩
              simp [h1, h2, h3, h4]
            · by_cases h5 : branchExists S ("c3/" ++ env.dateStr ++ "/" ++ env.timeStr)
              · by_cases h6 : branchExists S
                    ("c3/" ++ env.dateStr ++ "/" ++ env.timeStr ++ toString env.rand)
                · refine ⟨S, h, false,
                    [.listPulls,
                      .createRef ("c3/" ++ env.dateStr ++ "/" ++ env.timeStr) hb.sha false,
                      .createRef ("c3/" ++ env.dateStr ++ "/" ++ env.timeStr ++
                        toString env.rand) hb.sha false],
                    ?_, .inl ⟨rfl, rfl, rfl⟩, by simp [isCollisionEv]⟩
                  simp [h1, h2, h3, h4, h5, h6]
                · refine ⟨addBranch S ("c3/" ++ env.dateStr ++ "/" ++ env.timeStr ++
                      toString env.rand) hb.sha,
                    "c3/" ++ env.dateStr ++ "/" ++ env.timeStr ++ toString env.rand, true,
                    [.listPulls,
                      .createRef ("c3/" ++ env.dateStr ++ "/" ++ env.timeStr) hb.sha false,
                      .createRef ("c3/" ++ env.dateStr ++ "/" ++ env.timeStr ++
                        toString env.rand) hb.sha true],
                    ?_, .inr ⟨by simpa using h6, rfl, hb.sha, rfl⟩,
                    by simp [isCollisionEv]⟩
                  simp [h1, h2, h3, h4, h5, h6]
              · refine ⟨addBranch S ("c3/" ++ env.dateStr ++ "/" ++ env.timeStr) hb.sha,
                  "c3/" ++ env.dateStr ++ "/" ++ env.timeStr, true,
                  [.listPulls,
                    .createRef ("c3/" ++ env.dateStr ++ "/" ++ env.timeStr) hb.sha true],
                  ?_, .inr ⟨by simpa using h5, rfl, hb.sha, rfl⟩,
                  by simp [isCollisionEv]⟩
                simp [h1, h2, h3, h4, h5]
          · refine ⟨S, h, false, [.listPulls], ?_, .inl ⟨rfl, rfl, rfl⟩,
              by simp [isCollisionEv]⟩
            simp [h1, h2, h3]

/-- Branch lookups for names other than the added one are unchanged by
`addBranch`. -/
theorem findBranch_addBranch_of_found {S : RepoState} {b : String} {bb : Branch}
    (hfb : findBranch S b = some bb) (n sha : String) :
    findBranch (addBranch S n sha) b = some bb := by
  unfold findBranch at *
  unfold addBranch
  simp only [List.find?_append, hfb, Option.or_some]

/-- Every event emitted by the guard phase is a guard or submission event. -/
theorem guardPhase_events (S' : RepoState) (h b o : String) (bb : Branch) (c : Bool) :
    ∀ e ∈ (guardPhase S' h b o bb c).2, isCollisionEv e = false := by
  unfold guardPhase
  cases findBranch S' h with
  | none => simp
  | some hb =>
      dsimp only
      split
      · simp [isCollisionEv]
      · split <;> simp [isCollisionEv]

/-- A submission event determines its arguments and implies the guards
passed: the head branch was found in the post-collision state and its sha
differs from the base branch's. -/
theorem guardPhase_submit {S' : RepoState} {h b o : String} {bb : Branch} {c : Bool}
    {x y : String} (hmem : Ev.submitPull x y ∈ (guardPhase S' h b o bb c).2) :
    x = h ∧ y = b ∧ ∃ hb, findBranch S' h = some hb ∧ hb.sha ≠ bb.sha := by
  unfold guardPhase at hmem
  cases hfb : findBranch S' h with
  | none => rw [hfb] at hmem; simp at hmem
  | some hb =>
      rw [hfb] at hmem
      dsimp only at hmem
      by_cases h1 : hb.sha = bb.sha
      · rw [if_pos h1] at hmem; simp at hmem
      · rw [if_neg h1] at hmem
        split at hmem
        · simp at hmem
        · simp only [List.mem_cons, List.not_mem_nil, or_false] at hmem
          rcases hmem with hmem | hmem | hmem
          · exact absurd hmem (by simp)
          · exact absurd hmem (by simp)
          · injection hmem with h1' h2'
            exact ⟨h1', h2', hb, rfl, h1⟩

end PRPipelineLemmas

def isCreateRefEv : Ev → Bool
  | .createRef _ _ _ => true
  | _ => false

def isSubmitEv : Ev → Bool
  | .submitPull _ _ => true
  | _ => false

theorem isCollisionEv_not_submit {e : Ev} (h : isCollisionEv e = true) :
    isSubmitEv e = false := by
  cases e <;> simp_all [isCollisionEv, isSubmitEv]

theorem not_isCollisionEv_not_ref {e : Ev} (h : isCollisionEv e = false) :
    isCreateRefEv e = false := by
  cases e <;> simp_all [isCollisionEv, isCreateRefEv]

/-- The branch-creation attempts of one collision block: none, a single
attempt on the timestamped name, or a failed attempt followed by exactly
one retry on the two-digit-suffixed name. -/
theorem collisionPhase_refs (S : RepoState) (env : PREnv) (h b : String) :
    (collisionPhase S env h b).2.filter isCreateRefEv = [] ∨
    (∃ sha ok, (collisionPhase S env h b).2.filter isCreateRefEv =
      [.createRef ("c3/" ++ env.dateStr ++ "/" ++ env.timeStr) sha ok]) ∨
    (∃ sha ok, (collisionPhase S env h b).2.filter isCreateRefEv =
      [.createRef ("c3/" ++ env.dateStr ++ "/" ++ env.timeStr) sha false,
       .createRef ("c3/" ++ env.dateStr ++ "/" ++ env.timeStr ++ toString env.rand)
         sha ok]) := by
  unfold collisionPhase
  cases findBranch S h with
  | none => left; rfl
  | some hb =>
      by_cases h1 : env.headFetchRaises
      · left; simp [h1]
      · by_cases h2 : env.listPullsRaises
        · left; simp [h1, h2, isCreateRefEv]
        · by_cases h3 : S.open_pulls.any (fun p => p.head == h && p.base == b)
          · by_cases h4 : env.createRefRaises
            · right; left
              exact ⟨hb.sha, false, by simp [h1, h2, h3, h4, isCreateRefEv]⟩
            · by_cases h5 : branchExists S ("c3/" ++ env.dateStr ++ "/" ++ env.timeStr)
              · by_cases h6 : branchExists S
                    ("c3/" ++ env.dateStr ++ "/" ++ env.timeStr ++ toString env.rand)
                · right; right
                  exact ⟨hb.sha, false, by simp [h1, h2, h3, h4, h5, h6, isCreateRefEv]⟩
                · right; right
                  exact ⟨hb.sha, true, by simp [h1, h2, h3, h4, h5, h6, isCreateRefEv]⟩
              · right; left
                exact ⟨hb.sha, true, by simp [h1, h2, h3, h4, h5, isCreateRefEv]⟩
          · left; simp [h1, h2, h3, isCreateRefEv]

/-- The guard phase submits at most once. -/
theorem guardPhase_submits (S' : RepoState) (h b o : String) (bb : Branch) (c : Bool) :
    (guardPhase S' h b o bb c).2.filter isSubmitEv = [] ∨
    (guardPhase S' h b o bb c).2.filter isSubmitEv = [.submitPull h b] := by
  unfold guardPhase
  cases findBranch S' h with
  | none => left; rfl
  | some hb =>
      dsimp only
      split
      · left; simp [isSubmitEv]
      · split
        · left; simp [isSubmitEv]
        · right; simp [isSubmitEv]

/-! ### Concrete repository fixtures used by counterexamples and witnesses -/

/-- Two branches at the identical commit `s1`, plus an already-open
`dev -> main` pull request. -/
def repoSameSha : RepoState :=
  ⟨"main", [⟨"main", "s1", 5⟩, ⟨"dev", "s1", 7⟩], [⟨"dev", "main"⟩], fun _ => []⟩

/-- Two branches at distinct commits (`dev` one commit ahead of `main`),
plus an already-open `dev -> main` pull request. -/
def repoDiffSha : RepoState :=
  ⟨"main", [⟨"main", "s1", 5⟩, ⟨"dev", "s2", 7⟩], [⟨"dev", "main"⟩],
    fun s => if s = "s2" then ["s2", "s1"] else if s = "s1" then ["s1"] else []⟩

/-- Like `repoDiffSha`, but the timestamped name the collision handler will
synthesize already exists, forcing the 422 retry path. -/
def repoDiffShaTaken : RepoState :=
  ⟨"main",
    [⟨"main", "s1", 5⟩, ⟨"dev", "s2", 7⟩, ⟨"c3/2024-01-01/120000", "sX", 1⟩],
    [⟨"dev", "main"⟩],
    fun s => if s = "s2" then ["s2", "s1"] else if s = "s1" then ["s1"] else []⟩

def sampleEnv : PREnv := ⟨"2024-01-01", "120000", 42, false, false, false⟩

def listRaisesEnv : PREnv := ⟨"2024-01-01", "120000", 42, true, false, false⟩

/-! ### Claim C1 -/

/-- **C1 (counterexample).** A concrete invocation on a repository whose
`dev` and `main` branches share commit `s1` and which already has an open
`dev -> main` PR: the duplicate-PR check runs first, a timestamped branch is
forked, and only afterwards does the no-differences guard fire — so the
duplicate-PR check and the branch fork happen although the guards were
never passed, refuting the claimed order. -/
theorem guard_order_counterexample :
    (createPullRequest repoSameSha sampleEnv (some "dev") (some "main")).1 =
      .errorNoDiff "c3/2024-01-01/120000" "main" "s1" ∧
    (createPullRequest repoSameSha sampleEnv (some "dev") (some "main")).2.2 =
      [.listPulls, .createRef "c3/2024-01-01/120000" "s1" true,
        .guardNoDiff false] :=
  ⟨rfl, rfl⟩

/-- **C1 (amended).** In every invocation of `create_pull_request` the
remote-event trace is a block of collision-phase events (the open-PR query
and any branch-creation attempts) followed by guard and submission events:
the duplicate-PR check and any branch fork run *before* the no-differences
and subset-of-history guards, which are then evaluated on the possibly
substituted head. -/
theorem collision_check_runs_before_guards :
    ∀ (S : RepoState) (env : PREnv) (head? base? : Option String),
      ∃ pre suf, (createPullRequest S env head? base?).2.2 = pre ++ suf ∧
        (∀ e ∈ pre, isCollisionEv e = true) ∧
        (∀ e ∈ suf, isCollisionEv e = false) := by
  intro S env head? base?
  unfold createPullRequest
  cases hr : resolvePhase S head? base? with
  | error r => exact ⟨[], [], by simp, by simp, by simp⟩
  | ok v =>
      obtain ⟨h, b, bb⟩ := v
      dsimp only
      obtain ⟨S', h', c, evs, hcp, _, hev⟩ := collisionPhase_cases S env h b
      rw [hcp]
      exact ⟨evs, (guardPhase S' h' b h bb c).2, rfl, hev,
        guardPhase_events S' h' b h bb c⟩

/-- Witness for the amended C1 at a concrete invocation. -/
theorem collision_check_runs_before_guards_witness :
    ∃ pre suf,
      (createPullRequest repoSameSha sampleEnv (some "dev") (some "main")).2.2 =
        pre ++ suf ∧
      (∀ e ∈ pre, isCollisionEv e = true) ∧
      (∀ e ∈ suf, isCollisionEv e = false) :=
  collision_check_runs_before_guards repoSameSha sampleEnv (some "dev") (some "main")

/-! ### Claim C5 -/

/-- **C5.** Head and base are distinct whenever the remote create-pull call
is reached; when the resolved head equals the base, the new base is chosen
among the other branches by the "non-default first, then most recently
pushed" order (the selected branch is a candidate and no candidate is
strictly preferred over it, and it is non-default whenever any non-default
candidate exists); and when the repository has no branch other than the
head, the call fails with a reported error and submits nothing. -/
theorem head_ne_base_at_submission :
    (∀ (S : RepoState) (env : PREnv) (head? base? : Option String) (x y : String),
      Ev.submitPull x y ∈ (createPullRequest S env head? base?).2.2 → x ≠ y) ∧
    (∀ (S : RepoState) (env : PREnv) (h : String),
      h ≠ "" →
      S.branches.filter (fun br => br.name ≠ h) = [] →
      createPullRequest S env (some h) (some h) = (.errorSameNoOther h h, S, [])) ∧
    (∀ (d : String) (c : Branch) (t : List Branch),
      foldBase d c t ∈ c :: t ∧
      (∀ x ∈ c :: t, baseKeyLt d x (foldBase d c t) = false) ∧
      ((∃ x ∈ c :: t, x.name ≠ d) → (foldBase d c t).name ≠ d)) := by
  refine ⟨?_, ?_, ?_⟩
  · intro S env head? base? x y hmem
    unfold createPullRequest at hmem
    cases hr : resolvePhase S head? base? with
    | error r => rw [hr] at hmem; simp at hmem
    | ok v =>
        obtain ⟨h, b, bb⟩ := v
        rw [hr] at hmem
        dsimp only at hmem
        obtain ⟨S', h', c, evs, hcp, halt, hev⟩ := collisionPhase_cases S env h b
        rw [hcp] at hmem
        simp only [List.mem_append] at hmem
        rcases hmem with hmem | hmem
        · have := hev _ hmem
          simp [isCollisionEv] at this
        · obtain ⟨rfl, rfl, _, _, _⟩ := guardPhase_submit hmem
          obtain ⟨hne, hfb⟩ := resolvePhase_ok hr
          rcases halt with ⟨_, rfl, _⟩ | ⟨hnotex, _, _⟩
          · exact hne
          · intro hcontra
            rw [hcontra] at hnotex
            rw [branchExists, hfb] at hnotex
            simp at hnotex
  · intro S env h hne hfil
    have htr : truthy (some h) = true := by simp [truthy, hne]
    simp only [ne_eq, decide_not] at hfil
    unfold createPullRequest resolvePhase resolveHead resolveBase baseDefault
    rw [htr]
    simp [hfil]
  · intro d c t
    refine ⟨foldBase_mem d c t, foldBase_min d c t, ?_⟩
    rintro ⟨x, hx, hxd⟩ hcontra
    have hmin := foldBase_min d c t x hx
    rw [baseKeyLt] at hmin
    have hx' : (x.name == d) = false := by simp [hxd]
    have hc' : ((foldBase d c t).name == d) = true := by simp [hcontra]
    rw [hx', hc'] at hmin
    simp at hmin

/-- Witness for C5 at concrete inputs: a run that reaches submission has
distinct head and base, and a single-branch repository with head = base
fails with the reported error. -/
theorem head_ne_base_at_submission_witness :
    ("c3/2024-01-01/120000" : String) ≠ "main" ∧
    createPullRequest ⟨"main", [⟨"main", "s1", 5⟩], [], fun _ => []⟩ sampleEnv
        (some "main") (some "main") =
      (.errorSameNoOther "main" "main",
        ⟨"main", [⟨"main", "s1", 5⟩], [], fun _ => []⟩, []) :=
  ⟨head_ne_base_at_submission.1 repoDiffSha sampleEnv (some "dev") (some "main")
     "c3/2024-01-01/120000" "main" (by decide),
   head_ne_base_at_submission.2.1 ⟨"main", [⟨"main", "s1", 5⟩], [], fun _ => []⟩
     sampleEnv "main" (by decide) (by decide)⟩

/-! ### Claim C6 -/

/-- **C6.** Whenever the (possibly substituted) head branch and the base
branch point at the identical commit sha, `create_pull_request` returns the
descriptive no-differences error and emits no submission; and conversely
every submission that does happen was preceded by a successful lookup of
head and base branches with distinct shas in the post-collision repository
state. -/
theorem no_diff_guard_blocks_submission :
    (∀ (S' : RepoState) (h b o : String) (bb hb : Branch) (c : Bool),
      findBranch S' h = some hb → hb.sha = bb.sha →
      guardPhase S' h b o bb c = (.errorNoDiff h b hb.sha, [.guardNoDiff false])) ∧
    (∀ (S : RepoState) (env : PREnv) (head? base? : Option String) (x y : String),
      Ev.submitPull x y ∈ (createPullRequest S env head? base?).2.2 →
      ∃ hb bb, findBranch (createPullRequest S env head? base?).2.1 x = some hb ∧
        findBranch (createPullRequest S env head? base?).2.1 y = some bb ∧
        hb.sha ≠ bb.sha) := by
  constructor
  · intro S' h b o bb hb c hfb hsha
    unfold guardPhase
    rw [hfb]
    simp [hsha]
  · intro S env head? base? x y hmem
    unfold createPullRequest at hmem ⊢
    cases hr : resolvePhase S head? base? with
    | error r => rw [hr] at hmem; simp at hmem
    | ok v =>
        obtain ⟨h, b, bb⟩ := v
        rw [hr] at hmem
        dsimp only at hmem ⊢
        obtain ⟨S', h', c, evs, hcp, halt, hev⟩ := collisionPhase_cases S env h b
        rw [hcp] at hmem ⊢
        dsimp only at hmem ⊢
        simp only [List.mem_append] at hmem
        rcases hmem with hmem | hmem
        · have := hev _ hmem
          simp [isCollisionEv] at this
        · obtain ⟨rfl, rfl, hb', hfb', hsha'⟩ := guardPhase_submit hmem
          obtain ⟨hne, hfbB⟩ := resolvePhase_ok hr
          refine ⟨hb', bb, hfb', ?_, hsha'⟩
          rcases halt with ⟨rfl, _, _⟩ | ⟨_, _, sha, rfl⟩
          · exact hfbB
          · exact findBranch_addBranch_of_found hfbB _ _

/-- Witness for C6: on the same-sha repository the guard fires with the
no-differences error and an empty submission trace. -/
theorem no_diff_guard_blocks_submission_witness :
    guardPhase repoSameSha "dev" "main" "dev" ⟨"main", "s1", 5⟩ false =
      (.errorNoDiff "dev" "main" "s1", [.guardNoDiff false]) :=
  no_diff_guard_blocks_submission.1 repoSameSha "dev" "main" "dev"
    ⟨"main", "s1", 5⟩ ⟨"dev", "s1", 7⟩ false rfl rfl


/-! ### Claim C4 -/

/-- **C4.** When `create_pull_request` finds an already-open PR with the
exact same (head, base) pair, it synthesizes a branch named
`c3/<date>/<time>` (the `strftime('%Y-%m-%d')` and `strftime('%H%M%S')`
outputs) pointing at head's current commit and substitutes it as the new
head; on a 422 naming collision it appends the two-digit random suffix and
retries exactly once; and on success the result reports both the original
requested head and the synthesized one actually used. -/
theorem duplicate_pr_synthesizes_branch :
    (∀ (S : RepoState) (env : PREnv) (h b : String) (hb : Branch),
      findBranch S h = some hb →
      env.headFetchRaises = false → env.listPullsRaises = false →
      env.createRefRaises = false →
      S.open_pulls.any (fun p => p.head == h && p.base == b) = true →
      (branchExists S ("c3/" ++ env.dateStr ++ "/" ++ env.timeStr) = false →
        collisionPhase S env h b =
          ((addBranch S ("c3/" ++ env.dateStr ++ "/" ++ env.timeStr) hb.sha,
            "c3/" ++ env.dateStr ++ "/" ++ env.timeStr, true),
           [.listPulls,
            .createRef ("c3/" ++ env.dateStr ++ "/" ++ env.timeStr) hb.sha true])) ∧
      (branchExists S ("c3/" ++ env.dateStr ++ "/" ++ env.timeStr) = true →
        branchExists S
          ("c3/" ++ env.dateStr ++ "/" ++ env.timeStr ++ toString env.rand) = false →
        collisionPhase S env h b =
          ((addBranch S
              ("c3/" ++ env.dateStr ++ "/" ++ env.timeStr ++ toString env.rand) hb.sha,
            "c3/" ++ env.dateStr ++ "/" ++ env.timeStr ++ toString env.rand, true),
           [.listPulls,
            .createRef ("c3/" ++ env.dateStr ++ "/" ++ env.timeStr) hb.sha false,
            .createRef ("c3/" ++ env.dateStr ++ "/" ++ env.timeStr ++ toString env.rand)
              hb.sha true]))) ∧
    (∀ (S' : RepoState) (h b o : String) (bb hb : Branch),
      findBranch S' h = some hb → hb.sha ≠ bb.sha →
      historyNoNew S' hb.sha bb.sha = false →
      guardPhase S' h b o bb true =
        (.success h b o true,
         [.guardNoDiff true, .guardHistory true, .submitPull h b])) := by
  constructor
  · intro S env h b hb hfb hHF hLP hCR hdup
    constructor
    · intro hnew
      unfold collisionPhase
      rw [hfb]
      simp [hHF, hLP, hCR, hdup, hnew]
    · intro hnew hretry
      unfold collisionPhase
      rw [hfb]
      simp [hHF, hLP, hCR, hdup, hnew, hretry]
  · intro S' h b o bb hb hfb hsha hhist
    unfold guardPhase
    rw [hfb]
    simp [hsha, hhist]

/-- Witness for C4: on `repoDiffSha` (open `dev -> main` PR, timestamped
name free) the collision block creates `c3/2024-01-01/120000` at `dev`'s
commit `s2` and substitutes it as head. -/
theorem duplicate_pr_synthesizes_branch_witness :
    collisionPhase repoDiffSha sampleEnv "dev" "main" =
      ((addBranch repoDiffSha "c3/2024-01-01/120000" "s2",
        "c3/2024-01-01/120000", true),
       [.listPulls, .createRef "c3/2024-01-01/120000" "s2" true]) :=
  (duplicate_pr_synthesizes_branch.1 repoDiffSha sampleEnv "dev" "main"
    ⟨"dev", "s2", 7⟩ rfl rfl rfl rfl (by decide)).1 (by decide)

/-! ### Claim C8 -/

/-- **C8 (counterexample).** A concrete run in which the timestamped branch
name is already taken: the first `create_git_ref` fails (a 422), a second
creation attempt with the suffixed name follows automatically, and the call
succeeds without surfacing the failure — so a failing remote request *is*
automatically re-attempted. -/
theorem retry_after_422_counterexample :
    (createPullRequest repoDiffShaTaken sampleEnv (some "dev") (some "main")).2.2 =
      [.listPulls, .createRef "c3/2024-01-01/120000" "s2" false,
       .createRef "c3/2024-01-01/12000042" "s2" true,
       .guardNoDiff true, .guardHistory true,
       .submitPull "c3/2024-01-01/12000042" "main"] ∧
    (createPullRequest repoDiffShaTaken sampleEnv (some "dev") (some "main")).1 =
      .success "c3/2024-01-01/12000042" "main" "dev" true :=
  ⟨rfl, rfl⟩

/-- **C8 (amended).** No failure is automatically retried anywhere *except*
the synthesized-branch creation inside `create_pull_request`'s collision
handling: token issuance performs at most one network request per call, PR
creation is submitted at most once per call, and branch creation is
attempted at most twice — a second attempt occurs only after a failed first
attempt on the timestamped name and uses the two-digit-suffixed name. -/
theorem no_automatic_retries_except_branch_collision :
    (∀ (st : TokenState) (now : Int) (net : MintOutcome),
      (getInstallationToken st now net).2.2 ≤ 1) ∧
    (∀ (S : RepoState) (env : PREnv) (head? base? : Option String),
      (((createPullRequest S env head? base?).2.2).filter isSubmitEv).length ≤ 1) ∧
    (∀ (S : RepoState) (env : PREnv) (head? base? : Option String),
      ((createPullRequest S env head? base?).2.2).filter isCreateRefEv = [] ∨
      (∃ sha ok, ((createPullRequest S env head? base?).2.2).filter isCreateRefEv =
        [.createRef ("c3/" ++ env.dateStr ++ "/" ++ env.timeStr) sha ok]) ∨
      (∃ sha ok, ((createPullRequest S env head? base?).2.2).filter isCreateRefEv =
        [.createRef ("c3/" ++ env.dateStr ++ "/" ++ env.timeStr) sha false,
         .createRef ("c3/" ++ env.dateStr ++ "/" ++ env.timeStr ++ toString env.rand)
           sha ok])) := by
  refine ⟨?_, ?_, ?_⟩
  · intro st now net
    unfold getInstallationToken
    split
    · simp
    · split <;> simp
  · intro S env head? base?
    unfold createPullRequest
    cases hr : resolvePhase S head? base? with
    | error r => simp
    | ok v =>
        obtain ⟨h, b, bb⟩ := v
        dsimp only
        obtain ⟨S', h', c, evs, hcp, _, hev⟩ := collisionPhase_cases S env h b
        rw [hcp]
        dsimp only
        rw [List.filter_append]
        have h1 : evs.filter isSubmitEv = [] :=
          List.filter_eq_nil_iff.mpr fun e he => by
            rw [isCollisionEv_not_submit (hev e he)]; simp
        rw [h1, List.nil_append]
        rcases guardPhase_submits S' h' b h bb c with h2 | h2 <;> rw [h2] <;> simp
  · intro S env head? base?
    unfold createPullRequest
    cases hr : resolvePhase S head? base? with
    | error r => left; simp
    | ok v =>
        obtain ⟨h, b, bb⟩ := v
        dsimp only
        obtain ⟨S', h', c, evs, hcp, _, _⟩ := collisionPhase_cases S env h b
        rw [hcp]
        dsimp only
        rw [List.filter_append]
        have h2 : ((guardPhase S' h' b h bb c).2).filter isCreateRefEv = [] :=
          List.filter_eq_nil_iff.mpr fun e he => by
            rw [not_isCollisionEv_not_ref (guardPhase_events S' h' b h bb c e he)]
            simp
        rw [h2, List.append_nil]
        have := collisionPhase_refs S env h b
        rw [hcp] at this
        exact this

/-- Witness for the amended C8 at concrete inputs. -/
theorem no_automatic_retries_witness :
    (getInstallationToken ⟨none, none⟩ 1000 (.ok ⟨"tok", none⟩)).2.2 ≤ 1 ∧
    (((createPullRequest repoDiffShaTaken sampleEnv (some "dev")
        (some "main")).2.2).filter isSubmitEv).length ≤ 1 :=
  ⟨no_automatic_retries_except_branch_collision.1 ⟨none, none⟩ 1000 (.ok ⟨"tok", none⟩),
   no_automatic_retries_except_branch_collision.2.1 repoDiffShaTaken sampleEnv
     (some "dev") (some "main")⟩

/-! ### Claim C10 -/

/-- **C10.** The duplicate-PR collision check is silently best-effort:
when listing the open pull requests raises, when fetching the head branch
raises, or when creating the synthesized branch raises a non-422 error, the
exception is swallowed, the block reports no error and leaves the head
unchanged; in particular, when listing raises on a repository that already
has an open PR with the same (head, base) and the guards pass, the call
submits a duplicate (head, base) pair to the remote create-pull call. -/
theorem collision_check_swallows_exceptions :
    (∀ (S : RepoState) (env : PREnv) (h b : String) (hb : Branch),
      findBranch S h = some hb → env.headFetchRaises = false →
      env.listPullsRaises = true →
      collisionPhase S env h b = ((S, h, false), [.listPulls])) ∧
    (∀ (S : RepoState) (env : PREnv) (h b : String) (hb : Branch),
      findBranch S h = some hb → env.headFetchRaises = true →
      collisionPhase S env h b = ((S, h, false), [])) ∧
    (∀ (S : RepoState) (env : PREnv) (h b : String) (hb : Branch),
      findBranch S h = some hb → env.headFetchRaises = false →
      env.listPullsRaises = false → env.createRefRaises = true →
      S.open_pulls.any (fun p => p.head == h && p.base == b) = true →
      collisionPhase S env h b = ((S, h, false),
        [.listPulls,
         .createRef ("c3/" ++ env.dateStr ++ "/" ++ env.timeStr) hb.sha false])) ∧
    (∀ (S : RepoState) (env : PREnv) (h b : String) (hb bb : Branch),
      h ≠ "" → b ≠ "" → h ≠ b →
      findBranch S h = some hb → findBranch S b = some bb →
      env.headFetchRaises = false → env.listPullsRaises = true →
      S.open_pulls.any (fun p => p.head == h && p.base == b) = true →
      hb.sha ≠ bb.sha → historyNoNew S hb.sha bb.sha = false →
      createPullRequest S env (some h) (some b) =
        (.success h b h false, S,
         [.listPulls, .guardNoDiff true, .guardHistory true, .submitPull h b])) := by
  refine ⟨?_, ?_, ?_, ?_⟩
  · intro S env h b hb hfb hHF hLP
    unfold collisionPhase
    rw [hfb]
    simp [hHF, hLP]
  · intro S env h b hb hfb hHF
    unfold collisionPhase
    rw [hfb]
    simp [hHF]
  · intro S env h b hb hfb hHF hLP hCR hdup
    unfold collisionPhase
    rw [hfb]
    simp [hHF, hLP, hCR, hdup]
  · intro S env h b hb bb hneh hneb hne hfbH hfbB hHF hLP hdup hsha hhist
    have h1 : truthy (some h) = true := by simp [truthy, hneh]
    have h2 : truthy (some b) = true := by simp [truthy, hneb]
    have hres : resolvePhase S (some h) (some b) = .ok (h, b, bb) := by
      unfold resolvePhase resolveHead resolveBase baseDefault
      rw [h1, h2]
      simp [hne, hfbB]
    have hcol : collisionPhase S env h b = ((S, h, false), [.listPulls]) := by
      unfold collisionPhase
      rw [hfbH]
      simp [hHF, hLP]
    have hguard : guardPhase S h b h bb false =
        (.success h b h false,
         [.guardNoDiff true, .guardHistory true, .submitPull h b]) := by
      unfold guardPhase
      rw [hfbH]
      simp [hsha, hhist]
    unfold createPullRequest
    rw [hres]
    dsimp only
    rw [hcol]
    dsimp only
    rw [hguard]
    rfl

/-- Witness for C10: listing the open PRs raises on `repoDiffSha`, which
already has an open `dev -> main` PR; the call nevertheless succeeds and
submits the duplicate `(dev, main)` pair. -/
theorem collision_check_swallows_exceptions_witness :
    createPullRequest repoDiffSha listRaisesEnv (some "dev") (some "main") =
      (.success "dev" "main" "dev" false, repoDiffSha,
       [.listPulls, .guardNoDiff true, .guardHistory true,
        .submitPull "dev" "main"]) :=
  collision_check_swallows_exceptions.2.2.2 repoDiffSha listRaisesEnv "dev" "main"
    ⟨"dev", "s2", 7⟩ ⟨"main", "s1", 5⟩ (by decide) (by decide) (by decide)
    rfl rfl rfl rfl (by decide) (by decide) (by decide)

/-! ## Tool result shapes: `handle_tools_call` (server.py lines 411-482)
and the return sites of every tool handler

Each tool handler wraps every one of its `return` statements in the shape
`{"content": [{"type": "text", "text": json.dumps(inner)}]}` — except the
dispatcher itself, which returns a bare `{"error": ...}` dict for unknown
tool names (line 480) and for exceptions reaching its own `except` (line
482).  Each handler is embedded as a function from an outcome type — one
constructor per `return` site of the source, carrying that site's dynamic
values — to the returned value. -/

inductive Json where
  | str (s : String)
  | num (n : Int)
  | bool (b : Bool)
  | null
  | arr (xs : List Json)
  | obj (fields : List (String × Json))

/-- A tool handler's Python return value: `shaped inner` is
`{"content": [{"type": "text", "text": json.dumps(inner)}]}` (carrying the
object passed to `json.dumps`), `raw` is a dict returned without the
wrapper. -/
inductive ToolRet where
  | shaped (inner : Json)
  | raw (j : Json)

def optNum : Option Int → Json
  | some n => .num n
  | none => .null

def optStr : Option String → Json
  | some s => .str s
  | none => .null

/-- The single-quote character, as the sources embed it in error strings. -/
def sq : String := (Char.ofNat 39).toString

/-- The `except GithubException` site shared verbatim by the handlers:
`{"success": False, "error": "GitHub API错误: ...", "status": ...,
"error_type": ...}` (e.g. lines 627-639). -/
def ghErrorInner (msg : String) (status : Option Int) (ety : String) : Json :=
  .obj [("success", .bool false), ("error", .str ("GitHub API错误: " ++ msg)),
        ("status", optNum status), ("error_type", .str ety)]

/-- The generic `except Exception` site shared verbatim by the handlers
(e.g. lines 652-663). -/
def plainErrorInner (msg ety : String) : Json :=
  .obj [("success", .bool false), ("error", .str msg), ("error_type", .str ety)]

/-- `get_help` (lines 484-530): its single return site. -/
def getHelpResult (ts : String) : ToolRet :=
  .shaped (.obj
    [("success", .bool true),
     ("message", .str "GitHub App MCP服务器帮助"),
     ("data", .obj
       [("server", .str "🎯 MCP GitHub App"),
        ("version", .str "1.0.0"),
        ("total_functions", .num 10),
        ("tools", .arr
          [.obj [("name", .str "read_file"), ("description", .str "读取仓库文件内容")],
           .obj [("name", .str "create_branch"), ("description", .str "创建新分支")],
           .obj [("name", .str "create_or_update_file"), ("description", .str "创建或更新文件")],
           .obj [("name", .str "create_pull_request"), ("description", .str "创建Pull Request")],
           .obj [("name", .str "list_branches"), ("description", .str "列出所有分支")],
           .obj [("name", .str "get_repository"), ("description", .str "获取仓库信息")],
           .obj [("name", .str "list_repositories"),
             ("description", .str "列出仓库列表（支持列出用户/组织的仓库或App安装可访问的所有仓库）")],
           .obj [("name", .str "list_pull_requests"), ("description", .str "列出Pull Request")],
           .obj [("name", .str "get_pull_request"), ("description", .str "获取PR详情")],
           .obj [("name", .str "get_help"), ("description", .str "帮助信息")]]),
        ("environment_variables", .obj
          [("GITHUB_APP_ID", .str "GitHub App ID（必需）"),
           ("GITHUB_APP_PRIVATE_KEY",
             .str "GitHub App私钥内容（必需，或使用GITHUB_APP_PRIVATE_KEY_PATH）"),
           ("GITHUB_APP_PRIVATE_KEY_PATH", .str "GitHub App私钥文件路径（可选）"),
           ("GITHUB_APP_INSTALLATION_ID", .str "GitHub App安装ID（必需）")]),
        ("usage_tips", .arr
          [.str "使用 list_repositories 列出所有可访问的仓库（不提供owner参数时列出App安装的所有仓库）",
           .str "使用 list_repositories 并指定owner参数列出特定用户/组织的仓库",
           .str "使用 read_file 读取仓库文件",
           .str "使用 create_branch 创建新分支",
           .str "使用 create_or_update_file 创建或更新文件",
           .str "使用 create_pull_request 创建PR",
           .str "使用 list_branches 查看所有分支",
           .str "使用 list_pull_requests 查看PR列表"])]),
     ("timestamp", .str ts)])

/-- Return sites of `read_file` (lines 532-663). -/
inductive ReadFileOutcome where
  /-- line 548: the file does not exist on the ref (404). -/
  | notFound (path ref msg ety : String)
  /-- lines 611-618, UTF-8 text decode (`is_binary: false`). -/
  | okText (owner repo path ref : String) (size : Int) (sha encoding ty content : String)
  /-- lines 611-618, binary content returned base64-encoded. -/
  | okBinary (owner repo path ref : String) (size : Int) (sha encoding ty b64 : String)
  /-- lines 611-618, empty content. -/
  | okEmpty (owner repo path ref : String) (size : Int) (sha encoding ty : String)
  /-- lines 611-618, all decodes failed (`decode_error` populated). -/
  | okDecodeErr (owner repo path ref : String) (size : Int)
      (sha encoding ty b64 derr : String)
  | ghError (msg : String) (status : Option Int) (ety : String)
  | otherError (msg ety : String)

def readFileResult : ReadFileOutcome → ToolRet
  | .notFound path ref msg ety => .shaped (.obj
      [("success", .bool false),
       ("error", .str ("文件 " ++ sq ++ path ++ sq ++ " 在分支 " ++ sq ++ ref ++ sq ++
         " 中不存在: " ++ msg)),
       ("status", .num 404), ("error_type", .str ety)])
  | .okText owner repo path ref size sha encoding ty content => .shaped (.obj
      [("success", .bool true), ("owner", .str owner), ("repo", .str repo),
       ("path", .str path), ("ref", .str ref), ("size", .num size),
       ("sha", .str sha), ("encoding", .str encoding), ("type", .str ty),
       ("content", .str content), ("is_binary", .bool false)])
  | .okBinary owner repo path ref size sha encoding ty b64 => .shaped (.obj
      [("success", .bool true), ("owner", .str owner), ("repo", .str repo),
       ("path", .str path), ("ref", .str ref), ("size", .num size),
       ("sha", .str sha), ("encoding", .str encoding), ("type", .str ty),
       ("content_base64", .str b64), ("is_binary", .bool true)])
  | .okEmpty owner repo path ref size sha encoding ty => .shaped (.obj
      [("success", .bool true), ("owner", .str owner), ("repo", .str repo),
       ("path", .str path), ("ref", .str ref), ("size", .num size),
       ("sha", .str sha), ("encoding", .str encoding), ("type", .str ty),
       ("content", .str ""), ("is_binary", .bool false)])
  | .okDecodeErr owner repo path ref size sha encoding ty b64 derr => .shaped (.obj
      [("success", .bool true), ("owner", .str owner), ("repo", .str repo),
       ("path", .str path), ("ref", .str ref), ("size", .num size),
       ("sha", .str sha), ("encoding", .str encoding), ("type", .str ty),
       ("content_base64", .str b64), ("is_binary", .bool true),
       ("decode_error", .str derr)])
  | .ghError msg status ety => .shaped (ghErrorInner msg status ety)
  | .otherError msg ety => .shaped (plainErrorInner msg ety)

/-- Return sites of `create_branch` (lines 665-783). -/
inductive CreateBranchOutcome where
  /-- lines 722-738: branch created; `original` is the caller-supplied name
  when normalization changed it. -/
  | ok (owner repo normalized : String) (original : Option String) (sourceRef : String)
  | ghError (msg : String) (status : Option Int) (ety : String)
  | otherError (msg ety : String)

def createBranchResult : CreateBranchOutcome → ToolRet
  | .ok owner repo normalized original sourceRef => .shaped (.obj
      [("success", .bool true), ("owner", .str owner), ("repo", .str repo),
       ("branch_name", .str normalized),
       ("original_branch_name", optStr original),
       ("source_ref", .str sourceRef),
       ("message", .str ("分支 " ++ normalized ++ " 已成功创建" ++
         (match original with
          | some o => "（原始名称: " ++ o ++ "，已自动规范化）"
          | none => ""))),
       ("note", .str "分支名称已自动规范化，遵循 c3/xxx 命名规则")])
  | .ghError msg status ety => .shaped (ghErrorInner msg status ety)
  | .otherError msg ety => .shaped (plainErrorInner msg ety)

/-- Return sites of `create_or_update_file` (lines 785-909); the commit and
content sub-dicts are carried as built at lines 828-846. -/
inductive CoUFileOutcome where
  | ok (owner repo path branch action : String)
      (commitInfo contentInfo : List (String × Json))
  | ghError (msg : String) (status : Option Int) (ety : String)
  | otherError (msg ety : String)

def createOrUpdateFileResult : CoUFileOutcome → ToolRet
  | .ok owner repo path branch action commitInfo contentInfo => .shaped (.obj
      [("success", .bool true), ("owner", .str owner), ("repo", .str repo),
       ("path", .str path), ("branch", .str branch), ("action", .str action),
       ("commit", .obj commitInfo), ("content", .obj contentInfo)])
  | .ghError msg status ety => .shaped (ghErrorInner msg status ety)
  | .otherError msg ety => .shaped (plainErrorInner msg ety)

/-- Return sites of `create_pull_request` (lines 911-1303), mirroring the
constructors of `PRResult`. -/
inductive CPROutcome where
  /-- lines 928-938. -/
  | noBranches
  /-- lines 969-982. -/
  | noCandidate (base : String) (avail : List String)
  /-- lines 1024-1036. -/
  | sameNoOther (head base : String)
  /-- lines 1044-1057. -/
  | baseMissing (base msg : String) (status : Option Int) (ety : String)
  /-- lines 1116-1129. -/
  | headMissing (head msg : String) (status : Option Int) (ety : String)
  /-- lines 1132-1146. -/
  | noDiff (head base hsha bsha : String)
  /-- lines 1169-1183. -/
  | noNewCommits (head base hsha bsha : String)
  /-- lines 1196-1227; `subst = some (newBranch, originalHead)` when the
  collision handler substituted the head (lines 1213-1218). -/
  | ok (owner repo : String) (number : Int)
      (title body state headRef baseRef url : String)
      (createdAt : Option String) (subst : Option (String × String))
  /-- lines 1228-1279; `details` from the 422 `errors` array, `suggestion`
  added on a 422 (lines 1262-1270). -/
  | ghError (msg : String) (status : Option Int) (ety : String)
      (details : List String) (suggestion : Option String)
  /-- lines 1280-1303. -/
  | otherError (msg ety : String)

def createPullRequestResult : CPROutcome → ToolRet
  | .noBranches => .shaped (.obj
      [("success", .bool false), ("error", .str "仓库中没有分支，无法创建PR")])
  | .noCandidate base avail => .shaped (.obj
      [("success", .bool false),
       ("error", .str ("除了默认分支 " ++ sq ++ base ++ sq ++ " 外，没有其他分支可以创建PR")),
       ("available_branches", .arr (avail.map .str)),
       ("suggestion", .str "请先在其他分支上创建提交，或者指定一个分支来创建PR")])
  | .sameNoOther head base => .shaped (.obj
      [("success", .bool false),
       ("error", .str ("无法创建PR：源分支 " ++ sq ++ head ++ sq ++ " 和目标分支 " ++
         sq ++ base ++ sq ++ " 相同，且仓库中没有其他分支")),
       ("suggestion", .str "请指定一个不同的目标分支，或者先创建其他分支")])
  | .baseMissing base msg status ety => .shaped (.obj
      [("success", .bool false),
       ("error", .str ("目标分支 " ++ sq ++ base ++ sq ++ " 不存在: " ++ msg)),
       ("status", optNum status), ("error_type", .str ety)])
  | .headMissing head msg status ety => .shaped (.obj
      [("success", .bool false),
       ("error", .str ("源分支 " ++ sq ++ head ++ sq ++ " 不存在: " ++ msg)),
       ("status", optNum status), ("error_type", .str ety)])
  | .noDiff head base hsha bsha => .shaped (.obj
      [("success", .bool false),
       ("error", .str ("分支 " ++ sq ++ head ++ sq ++ " 和 " ++ sq ++ base ++ sq ++
         " 没有差异，无法创建 PR。两个分支指向相同的提交。")),
       ("head_sha", .str hsha), ("base_sha", .str bsha),
       ("suggestion", .str "请确保源分支包含新的提交，或者先在新分支上进行修改后再创建PR。")])
  | .noNewCommits head base hsha bsha => .shaped (.obj
      [("success", .bool false),
       ("error", .str ("分支 " ++ sq ++ head ++ sq ++ " 相对于 " ++ sq ++ base ++ sq ++
         " 没有新的提交。无法创建 PR。")),
       ("head_sha", .str hsha), ("base_sha", .str bsha),
       ("suggestion", .str "源分支的所有提交已经包含在目标分支中。请先在新分支上创建新的提交，然后再创建PR。")])
  | .ok owner repo number title body state headRef baseRef url createdAt subst =>
      .shaped (.obj
        ([("success", .bool true), ("owner", .str owner), ("repo", .str repo),
          ("pull_request", .obj
            [("number", .num number), ("title", .str title), ("body", .str body),
             ("state", .str state), ("head", .str headRef), ("base", .str baseRef),
             ("url", .str url), ("created_at", optStr createdAt)])] ++
         (match subst with
          | some (newBranch, originalHead) =>
              [("message", .str ("已存在相同方向的PR（" ++ originalHead ++ " -> " ++
                 baseRef ++ "），已自动创建新分支 " ++ newBranch ++ " 并创建PR")),
               ("new_branch", .str newBranch),
               ("original_head", .str originalHead),
               ("note", .str "分支命名遵循 c3/YYYY-MM-DD/HHMMSS 格式")]
          | none => [])))
  | .ghError msg status ety details suggestion => .shaped (.obj
      ([("success", .bool false), ("error", .str ("GitHub API错误: " ++ msg)),
        ("status", optNum status), ("error_type", .str ety)] ++
       (if details.isEmpty then [] else [("error_details", .arr (details.map .str))]) ++
       (match suggestion with
        | some sug => [("suggestion", .str sug)]
        | none => [])))
  | .otherError msg ety => .shaped (plainErrorInner msg ety)

/-- Return sites of `list_branches` (lines 1305-1389). -/
inductive ListBranchesOutcome where
  | ok (owner repo : String) (branches : List Json)
  | ghError (msg : String) (status : Option Int) (ety : String)
  | otherError (msg ety : String)

def listBranchesResult : ListBranchesOutcome → ToolRet
  | .ok owner repo branches => .shaped (.obj
      [("success", .bool true), ("owner", .str owner), ("repo", .str repo),
       ("branches", .arr branches), ("total", .num branches.length)])
  | .ghError msg status ety => .shaped (ghErrorInner msg status ety)
  | .otherError msg ety => .shaped (plainErrorInner msg ety)

/-- Return sites of `get_repository` (lines 1391-1471). -/
inductive GetRepoOutcome where
  | ok (repoInfo : List (String × Json))
  | ghError (msg : String) (status : Option Int) (ety : String)
  | otherError (msg ety : String)

def getRepositoryResult : GetRepoOutcome → ToolRet
  | .ok repoInfo => .shaped (.obj
      [("success", .bool true), ("repository", .obj repoInfo)])
  | .ghError msg status ety => .shaped (ghErrorInner msg status ety)
  | .otherError msg ety => .shaped (plainErrorInner msg ety)

/-- Return sites of `list_pull_requests` (lines 1473-1552). -/
inductive ListPRsOutcome where
  | ok (owner repo state : String) (prs : List Json)
  | ghError (msg : String) (status : Option Int) (ety : String)
  | otherError (msg ety : String)

def listPullRequestsResult : ListPRsOutcome → ToolRet
  | .ok owner repo state prs => .shaped (.obj
      [("success", .bool true), ("owner", .str owner), ("repo", .str repo),
       ("state", .str state), ("pull_requests", .arr prs),
       ("total", .num prs.length)])
  | .ghError msg status ety => .shaped (ghErrorInner msg status ety)
  | .otherError msg ety => .shaped (plainErrorInner msg ety)

/-- Return sites of `get_pull_request` (lines 1554-1636). -/
inductive GetPROutcome where
  | ok (owner repo : String) (pr : List (String × Json))
  | ghError (msg : String) (status : Option Int) (ety : String)
  | otherError (msg ety : String)

def getPullRequestResult : GetPROutcome → ToolRet
  | .ok owner repo pr => .shaped (.obj
      [("success", .bool true), ("owner", .str owner), ("repo", .str repo),
       ("pull_request", .obj pr)])
  | .ghError msg status ety => .shaped (ghErrorInner msg status ety)
  | .otherError msg ety => .shaped (plainErrorInner msg ety)

/-- Return sites of `list_repositories` (lines 1638-1915). -/
inductive ListReposOutcome where
  /-- lines 1751-1762: fetching the named owner failed (no error_type key). -/
  | ownerFetchError (owner msg : String) (status : Option Int)
  /-- lines 1843-1853: the installation-repositories fetch failed (only
  success and error keys). -/
  | installFetchError (msg : String)
  /-- lines 1855-1870: `ownerField` is the owner string or the literal
  "GitHub App Installation" when none was given. -/
  | ok (ownerField : Json) (ty sortv dir : String) (repos : List Json)
  | ghError (msg : String) (status : Option Int) (ety : String)
  | otherError (msg ety : String)

def listRepositoriesResult : ListReposOutcome → ToolRet
  | .ownerFetchError owner msg status => .shaped (.obj
      [("success", .bool false),
       ("error", .str ("无法获取用户/组织 " ++ owner ++ " 的仓库: " ++ msg)),
       ("status", optNum status)])
  | .installFetchError msg => .shaped (.obj
      [("success", .bool false),
       ("error", .str ("无法获取GitHub App安装的仓库: " ++ msg))])
  | .ok ownerField ty sortv dir repos => .shaped (.obj
      [("success", .bool true), ("owner", ownerField), ("type", .str ty),
       ("sort", .str sortv), ("direction", .str dir),
       ("repositories", .arr repos), ("total", .num repos.length)])
  | .ghError msg status ety => .shaped (ghErrorInner msg status ety)
  | .otherError msg ety => .shaped (plainErrorInner msg ety)

/-- One outcome per tool for a single dispatched call. -/
structure CallOracle where
  ts : String
  readFile : ReadFileOutcome
  createBranch : CreateBranchOutcome
  createOrUpdateFile : CoUFileOutcome
  createPR : CPROutcome
  listBranches : ListBranchesOutcome
  getRepo : GetRepoOutcome
  listPRs : ListPRsOutcome
  getPR : GetPROutcome
  listRepos : ListReposOutcome

/-- `handle_tools_call` (lines 411-482): dispatch on the tool name; unknown
names return the bare `{"error": "Unknown tool: ..."}` dict (line 480), and
an exception caught by the dispatcher returns `{"error": str(e)}` (line
482, modelled by `exc`). -/
def handleToolsCall (name : String) (o : CallOracle) (exc : Option String) : ToolRet :=
  match exc with
  | some m => .raw (.obj [("error", .str m)])
  | none =>
      match name with
      | "get_help" => getHelpResult o.ts
      | "read_file" => readFileResult o.readFile
      | "create_branch" => createBranchResult o.createBranch
      | "create_or_update_file" => createOrUpdateFileResult o.createOrUpdateFile
      | "create_pull_request" => createPullRequestResult o.createPR
      | "list_branches" => listBranchesResult o.listBranches
      | "get_repository" => getRepositoryResult o.getRepo
      | "list_pull_requests" => listPullRequestsResult o.listPRs
      | "get_pull_request" => getPullRequestResult o.getPR
      | "list_repositories" => listRepositoriesResult o.listRepos
      | _ => .raw (.obj [("error", .str ("Unknown tool: " ++ name))])

/-- The ten tool names of the catalog. -/
def knownTools : List String :=
  ["get_help", "read_file", "create_branch", "create_or_update_file",
   "create_pull_request", "list_branches", "get_repository",
   "list_pull_requests", "get_pull_request", "list_repositories"]

/-- Lookup of a field in a JSON object (first occurrence). -/
def getField : Json → String → Option Json
  | .obj fs, k => (fs.find? (fun f => f.1 == k)).map (fun f => f.2)
  | _, _ => none

/-! ### Claim C7 -/

/-- **C7 (counterexample).** A call with an unknown tool name returns the
bare `{"error": "Unknown tool: ..."}` dict of line 480 — not the
`{content: [{type, text}]}` shape, and with no `success` field — refuting
the claim for unknown tool names. -/
theorem tool_result_shape_counterexample :
    handleToolsCall "bogus_tool"
        ⟨"t", .otherError "e" "E", .otherError "e" "E", .otherError "e" "E",
         .otherError "e" "E", .otherError "e" "E", .otherError "e" "E",
         .otherError "e" "E", .otherError "e" "E", .otherError "e" "E"⟩ none =
      .raw (.obj [("error", .str "Unknown tool: bogus_tool")]) ∧
    ∀ inner, handleToolsCall "bogus_tool"
        ⟨"t", .otherError "e" "E", .otherError "e" "E", .otherError "e" "E",
         .otherError "e" "E", .otherError "e" "E", .otherError "e" "E",
         .otherError "e" "E", .otherError "e" "E", .otherError "e" "E"⟩ none ≠
      .shaped inner :=
  ⟨rfl, fun _ h => nomatch h⟩

/-- **C7 (amended).** Every call to one of the ten known tools returns the
`{content: [{type: "text", text: json.dumps(...)}]}` shape whose embedded
JSON carries a boolean `success` field, and every failure result among them
carries an `error` string; calls with an unknown tool name, and calls whose
dispatch raises, instead return a bare `{"error": <string>}` dict with no
content wrapper and no `success` field. -/
theorem tool_result_shape :
    (∀ (name : String) (o : CallOracle), name ∈ knownTools →
      ∃ inner b, handleToolsCall name o none = .shaped inner ∧
        getField inner "success" = some (.bool b) ∧
        (b = false → ∃ s, getField inner "error" = some (.str s))) ∧
    (∀ (name : String) (o : CallOracle), name ∉ knownTools →
      handleToolsCall name o none =
        .raw (.obj [("error", .str ("Unknown tool: " ++ name))])) ∧
    (∀ (name : String) (o : CallOracle) (m : String),
      handleToolsCall name o (some m) = .raw (.obj [("error", .str m)])) := by
  refine ⟨?_, ?_, ?_⟩
  · intro name o hmem
    obtain ⟨ts, rf, cb, cu, cp, lb, gr, lp, gp, lr⟩ := o
    fin_cases hmem
    · exact ⟨_, true, rfl, rfl, by simp⟩
    · cases rf <;>
        first
          | exact ⟨_, true, rfl, rfl, by simp⟩
          | exact ⟨_, false, rfl, rfl, fun _ => ⟨_, rfl⟩⟩
    · cases cb <;>
        first
          | exact ⟨_, true, rfl, rfl, by simp⟩
          | exact ⟨_, false, rfl, rfl, fun _ => ⟨_, rfl⟩⟩
    · cases cu <;>
        first
          | exact ⟨_, true, rfl, rfl, by simp⟩
          | exact ⟨_, false, rfl, rfl, fun _ => ⟨_, rfl⟩⟩
    · cases cp <;>
        first
          | exact ⟨_, true, rfl, rfl, by simp⟩
          | exact ⟨_, false, rfl, rfl, fun _ => ⟨_, rfl⟩⟩
    · cases lb <;>
        first
          | exact ⟨_, true, rfl, rfl, by simp⟩
          | exact ⟨_, false, rfl, rfl, fun _ => ⟨_, rfl⟩⟩
    · cases gr <;>
        first
          | exact ⟨_, true, rfl, rfl, by simp⟩
          | exact ⟨_, false, rfl, rfl, fun _ => ⟨_, rfl⟩⟩
    · cases lp <;>
        first
          | exact ⟨_, true, rfl, rfl, by simp⟩
          | exact ⟨_, false, rfl, rfl, fun _ => ⟨_, rfl⟩⟩
    · cases gp <;>
        first
          | exact ⟨_, true, rfl, rfl, by simp⟩
          | exact ⟨_, false, rfl, rfl, fun _ => ⟨_, rfl⟩⟩
    · cases lr <;>
        first
          | exact ⟨_, true, rfl, rfl, by simp⟩
          | exact ⟨_, false, rfl, rfl, fun _ => ⟨_, rfl⟩⟩
  · intro name o hmem
    unfold knownTools at hmem
    simp only [List.mem_cons, List.not_mem_nil, or_false, not_or] at hmem
    obtain ⟨h1, h2, h3, h4, h5, h6, h7, h8, h9, h10⟩ := hmem
    unfold handleToolsCall
    split
    · rename_i heq
      exact absurd heq (by simp)
    · split
      all_goals
        first
          | rfl
          | exact absurd rfl h1
          | exact absurd rfl h2
          | exact absurd rfl h3
          | exact absurd rfl h4
          | exact absurd rfl h5
          | exact absurd rfl h6
          | exact absurd rfl h7
          | exact absurd rfl h8
          | exact absurd rfl h9
          | exact absurd rfl h10
  · intro name o m
    rfl

/-- Witness for the amended C7: the known tool `read_file` on a concrete
failing outcome. -/
theorem tool_result_shape_witness :
    ∃ inner b, handleToolsCall "read_file"
        ⟨"t", .otherError "boom" "ValueError", .otherError "e" "E", .otherError "e" "E",
         .otherError "e" "E", .otherError "e" "E", .otherError "e" "E",
         .otherError "e" "E", .otherError "e" "E", .otherError "e" "E"⟩ none =
        .shaped inner ∧
      getField inner "success" = some (.bool b) ∧
      (b = false → ∃ s, getField inner "error" = some (.str s)) :=
  tool_result_shape.1 "read_file"
    ⟨"t", .otherError "boom" "ValueError", .otherError "e" "E", .otherError "e" "E",
     .otherError "e" "E", .otherError "e" "E", .otherError "e" "E",
     .otherError "e" "E", .otherError "e" "E", .otherError "e" "E"⟩
    (by simp [knownTools])

end GithubApp
